import Mathlib

/-!
Shallow embedding of two reconciliation engines of the repository:

* the NAD controller (`networkAttachDefController`, file `syncNAD` /
  `GetActiveNetworkForNamespace`), which maintains the declaration-to-network
  map `nads`, the namespace-to-primary-declaration map `primaryNADs` and the
  network manager's registry of networks; and

* the load-balancer reconciliation engine
  (`pkg/ovn/loadbalancer/loadbalancer.go`, `EnsureLBs`,
  `LoadBalancersEqualNoUUID`), which diffs desired load-balancer specs
  against existing rows and computes the create/update/delete and
  attach/detach operation sets committed in one transaction.

Go maps are embedded as association lists with first-match lookup; Go string
sets as duplicate-free lists with membership.
-/

/-! ### Association-list maps (shallow embedding of Go maps) -/

/-- Lookup in an association list: first entry with the given key. -/
def lookupA {α β : Type} [DecidableEq α] (l : List (α × β)) (k : α) : Option β :=
  (l.find? (fun p => decide (p.1 = k))).map Prod.snd

/-- Remove every entry with the given key (Go `delete(m, k)`). -/
def eraseA {α β : Type} [DecidableEq α] (l : List (α × β)) (k : α) : List (α × β) :=
  l.filter (fun p => decide (p.1 ≠ k))

/-- Overwriting insert (Go `m[k] = v`). -/
def insertA {α β : Type} [DecidableEq α] (l : List (α × β)) (k : α) (v : β) : List (α × β) :=
  (k, v) :: eraseA l k

/-! ### String sets (shallow embedding of Go `sets.String`) -/

/-- Set-style insert into a duplicate-free list (Go `sets.String.Insert`). -/
def insertS (l : List String) (x : String) : List String :=
  if x ∈ l then l else l ++ [x]

/-! ### NAD controller data model

Embeds the state of `nadController` (`nads`, `primaryNADs`) together with the
network manager's registry of networks, and the `syncNAD` reconciliation
callback. -/

/-- Namespaced key of a network attachment definition (the namespace/name pair
produced by `cache.SplitMetaNamespaceKey`). -/
structure Key where
  ns : String
  name : String
deriving DecidableEq

/-- Structural configuration of a network, compared by value equality
(`util.NetInfo.Equals`); `primary` is the `IsPrimaryNetwork` role flag. -/
structure NetConf where
  topology : String
  subnets : String
  mtu : Nat
  primary : Bool
deriving DecidableEq

/-- A logical network as held by the network manager: name, configuration and
the set of NAD keys referencing it (`GetNADs`). -/
structure Network where
  name : String
  conf : NetConf
  nads : List Key
deriving DecidableEq

/-- Result of `util.ParseNADInfo` on a NAD: the network name and config.
Modelled from the spec: `util.ParseNADInfo` is not under `src/`; per the spec a
parsed declaration yields a Network descriptor identified by its network
name. The freshly parsed descriptor carries no NAD references yet
(`AddNADs` attaches the key inside `syncNAD`). -/
structure ParsedNAD where
  netName : String
  conf : NetConf
deriving DecidableEq

/-- The declaration argument of one `syncNAD` call: `nil` is a deletion,
`invalid` a declaration whose config fails to parse, `parsed` a successfully
parsed declaration. -/
inductive Decl where
  | nil
  | invalid
  | parsed (p : ParsedNAD)
deriving DecidableEq

/-- Controller state: the `nads` map (declaration key to network name), the
`primaryNADs` map (namespace to primary declaration key) and the network
manager's registry (network name to network). -/
structure CState where
  nads : List (Key × String)
  primaryNADs : List (String × Key)
  networks : List (String × Network)
deriving DecidableEq

/-- Observable calls made to the network manager during one sync. -/
inductive Event where
  | ensure (net : Network)
  | deleteNet (name : String)
deriving DecidableEq

/-- Errors returned by `syncNAD`. -/
inductive SyncErr where
  | primaryConflict
  | configConflict
deriving DecidableEq

/-- Result of one `syncNAD` call: the new state, the network manager calls
made, and the returned error. -/
structure SyncResult where
  state : CState
  events : List Event
  err : Option SyncErr
deriving DecidableEq

/-- `GetNetworkName` of the parsed declaration, `""` for a deletion
(`nadNetworkName` stays the zero value in the Go code). -/
def nameOf : Option ParsedNAD → String
  | some q => q.netName
  | none => ""

/-- `c.nads[key]`: Go map read returning the zero value `""` when absent. -/
def prevNameOf (key : Key) (s : CState) : String :=
  (lookupA s.nads key).getD ""

/-- The old network identified up front: when the NAD refers to a different
network name than before, look the previous name up in the network manager. -/
def oldNet0 (key : Key) (p : Option ParsedNAD) (s : CState) : Option Network :=
  if nameOf p ≠ prevNameOf key s then lookupA s.networks (prevNameOf key s) else none

/-- `currentNetwork.Equals(nadNetwork)`: value equality of the configuration
(and name); comparison against a nil parsed network is false. -/
def netEquals (cur : Network) : Option ParsedNAD → Bool
  | some q => decide (cur.name = q.netName) && decide (cur.conf = q.conf)
  | none => false

/-- `sets.New(key).HasAll(currentNetwork.GetNADs()...)`: the key is the sole
possible referencer of the network. -/
def soleRef (cur : Network) (key : Key) : Bool :=
  cur.nads.all (fun x => decide (x = key))

/-- The network built from a freshly parsed declaration. -/
def freshNet (p : ParsedNAD) : Network :=
  { name := p.netName, conf := p.conf, nads := [] }

/-- `AddNADs`: add the key to the reference set if not present. -/
def addNAD (l : List Key) (k : Key) : List Key :=
  if k ∈ l then l else l ++ [k]

/-- `DeleteNADs`: remove the key from the reference set. -/
def removeNAD (l : List Key) (k : Key) : List Key :=
  l.filter (fun x => decide (x ≠ k))

/-- The primary-conflict guard: the parsed network is primary and the
namespace already records a different primary declaration key. -/
def guardFired (key : Key) (p : Option ParsedNAD) (s : CState) : Bool :=
  match p, lookupA s.primaryNADs key.ns with
  | some q, some pk => q.conf.primary && decide (pk ≠ key)
  | _, _ => false

/-- The switch statement of `syncNAD`, computing the old network to detach
from, the network to ensure, and the error, in source order:
new network / compatible existing network / sole referencer of an
incompatible network / conflict (with the fallthrough arm marking the
current network as old when none was identified). -/
def decideBranch (key : Key) (p : Option ParsedNAD) (s : CState) :
    Option Network × Option Network × Option SyncErr :=
  match lookupA s.networks (nameOf p) with
  | none => (oldNet0 key p s, p.map freshNet, none)
  | some cur =>
    if netEquals cur p then (oldNet0 key p s, some cur, none)
    else if soleRef cur key then (some cur, p.map freshNet, none)
    else (some ((oldNet0 key p s).getD cur), none, some SyncErr.configConflict)

/-- Remove the NAD reference from the old network; delete the network when no
references remain, re-ensure it otherwise. -/
def detach (key : Key) (oldN : Option Network) (nm : List (String × Network)) :
    List Event × List (String × Network) :=
  match oldN with
  | none => ([], nm)
  | some old =>
    if removeNAD old.nads key = [] then
      ([Event.deleteNet old.name], eraseA nm old.name)
    else
      ([Event.ensure { old with nads := removeNAD old.nads key }],
        insertA nm old.name { old with nads := removeNAD old.nads key })

/-- Clear the namespace's primary entry when it records this key. -/
def clearPrimaryIfKey (pm : List (String × Key)) (key : Key) : List (String × Key) :=
  if lookupA pm key.ns = some key then eraseA pm key.ns else pm

/-- Track the primary NAD: record the key when the ensured network is primary,
clear a stale entry for this key otherwise. -/
def setPrimary (pm : List (String × Key)) (key : Key) (en : Network) : List (String × Key) :=
  if en.conf.primary then insertA pm key.ns key else clearPrimaryIfKey pm key

/-- The ensured network after `AddNADs(key)`. -/
def ensured (en : Network) (key : Key) : Network :=
  { en with nads := addNAD en.nads key }

/-- Apply the detach and ensure phases of `syncNAD` given the computed
decision. In the delete/conflict arm (`ensureNetwork == nil`) the key is
cleared from `nads` and from `primaryNADs` when it was the recorded primary;
in the ensure arm the key is bound to the target network, the primary entry
is updated and the network manager ensures the target. -/
def applyDecision (key : Key) (s : CState) :
    Option Network × Option Network × Option SyncErr → SyncResult
  | (oldN, none, err) =>
    ⟨⟨eraseA s.nads key, clearPrimaryIfKey s.primaryNADs key, (detach key oldN s.networks).2⟩,
      (detach key oldN s.networks).1, err⟩
  | (oldN, some en, _) =>
    ⟨⟨insertA s.nads key (ensured en key).name, setPrimary s.primaryNADs key en,
        insertA (detach key oldN s.networks).2 (ensured en key).name (ensured en key)⟩,
      (detach key oldN s.networks).1 ++ [Event.ensure (ensured en key)], none⟩

/-- The body of `syncNAD` after parsing: the primary-conflict guard returns
early with no mutation; otherwise the decision is computed and applied. -/
def syncNADCore (key : Key) (p : Option ParsedNAD) (s : CState) : SyncResult :=
  if guardFired key p s then ⟨s, [], some SyncErr.primaryConflict⟩
  else applyDecision key s (decideBranch key p s)

/-- `syncNAD`: a parse failure is logged and treated as a no-op; a deletion
or parsed declaration runs the core sync. -/
def syncNAD (key : Key) (d : Decl) (s : CState) : SyncResult :=
  match d with
  | Decl.invalid => ⟨s, [], none⟩
  | Decl.nil => syncNADCore key none s
  | Decl.parsed p => syncNADCore key (some p) s

/-! ### Active network lookup -/

/-- A user defined network as listed by the database-backed secondary source
(`udnLister`). Modelled from the spec: the UDN CRD types are not under
`src/`; the lookup only needs each declaration's name and whether
`util.IsPrimaryNetwork` holds for its spec. -/
structure UDN where
  name : String
  primary : Bool
deriving DecidableEq

/-- Outcome of `GetActiveNetworkForNamespace`: the default cluster-wide
placeholder, the namespace's primary network restricted to its primary NAD,
the retryable unprocessed-primary-network error, the explicit consistency
panic, or the nil-network dereference when the recorded network name is not
registered. -/
inductive ActiveResult where
  | defaultNet
  | primaryNet (net : Network)
  | unprocessedErr (ns udnName : String)
  | panicInconsistency
  | panicNilNetwork
deriving DecidableEq

/-- `GetActiveNetworkForNamespace`: returns the default network when network
segmentation support is disabled; otherwise returns the recorded primary
network (a copy restricted to the primary NAD key), panicking when the
recorded primary key has no network-name entry; with no recorded primary it
returns the unprocessed-primary error when the secondary source lists a
primary UDN, and the default network otherwise. -/
def GetActiveNetworkForNamespace (segEnabled : Bool) (s : CState) (udns : List UDN)
    (ns : String) : ActiveResult :=
  if !segEnabled then ActiveResult.defaultNet
  else
    match lookupA s.primaryNADs ns with
    | some primaryNAD =>
      if (lookupA s.nads primaryNAD).getD "" = "" then ActiveResult.panicInconsistency
      else
        match lookupA s.networks ((lookupA s.nads primaryNAD).getD "") with
        | some network => ActiveResult.primaryNet { network with nads := [primaryNAD] }
        | none => ActiveResult.panicNilNetwork
    | none =>
      match udns.find? (fun u => u.primary) with
      | some udn => ActiveResult.unprocessedErr ns udn.name
      | none => ActiveResult.defaultNet

/-! ### Registry invariants and reachability -/

/-- Modelled from the spec: `util.ParseNADInfo` (not under `src/`) only yields
networks identified by a network name, so a parsed declaration's network name
is nonempty. -/
def declValid : Decl → Prop
  | Decl.parsed p => p.netName ≠ ""
  | _ => True

/-- Consistency invariant of the controller registry:
1. registry entries are keyed by their network's nonempty name;
2. registered networks are referenced by at least one NAD key;
3. a tracked key's network is registered and lists the key;
4. a registered network's references are exactly the keys tracked to it;
5. a recorded primary key belongs to its namespace and is tracked;
6. `primaryNADs` has at most one entry per namespace. -/
def RegInv (s : CState) : Prop :=
  (∀ n net, lookupA s.networks n = some net → net.name = n ∧ n ≠ "") ∧
  (∀ n net, lookupA s.networks n = some net → net.nads ≠ []) ∧
  (∀ k n, lookupA s.nads k = some n →
    ∃ net, lookupA s.networks n = some net ∧ k ∈ net.nads) ∧
  (∀ n net k, lookupA s.networks n = some net → k ∈ net.nads →
    lookupA s.nads k = some n) ∧
  (∀ ns k, lookupA s.primaryNADs ns = some k →
    k.ns = ns ∧ ∃ n, lookupA s.nads k = some n) ∧
  (s.primaryNADs.map Prod.fst).Nodup

/-- The empty controller registry. -/
def emptyState : CState := ⟨[], [], []⟩

/-- States reachable by sequences of `syncNAD` calls (with declarations that
parse to named networks) from the empty registry. -/
inductive Reachable : CState → Prop
  | empty : Reachable emptyState
  | step {s : CState} (key : Key) (d : Decl) : Reachable s → declValid d →
      Reachable (syncNAD key d s).state

/-! ### Concrete fixtures used by counterexamples and witnesses -/

/-- Fixture key `ns1/a`. -/
def kA : Key := ⟨"ns1", "a"⟩

/-- Fixture key `ns1/b`. -/
def kB : Key := ⟨"ns1", "b"⟩

/-- Fixture key `ns2/c`. -/
def kC : Key := ⟨"ns2", "c"⟩

/-- Fixture primary network config. -/
def confP : NetConf := ⟨"layer3", "10.10.0.0/16", 1400, true⟩

/-- Fixture secondary network config. -/
def conf1 : NetConf := ⟨"layer3", "10.0.0.0/16", 1400, false⟩

/-- Fixture secondary network config incompatible with `conf1`. -/
def conf2 : NetConf := ⟨"layer2", "10.0.0.0/16", 1400, false⟩

/-- Fixture secondary network config for a second network name. -/
def confY : NetConf := ⟨"layer3", "10.1.0.0/16", 1400, false⟩

/-! ### Load-balancer reconciliation model (`pkg/ovn/loadbalancer`) -/

/-- Per-LB options (`LBOpts`). -/
structure LBOpts where
  unidling : Bool
  affinity : Bool
  skipSNAT : Bool
deriving DecidableEq

/-- One load-balancer rule: a source VIP and its target endpoints, already
rendered as strings (`Addr.String()`). -/
structure LBRule where
  source : String
  targets : List String
deriving DecidableEq

/-- A desired load-balancer specification (`LB`). -/
structure LB where
  name : String
  uuid : String
  protocol : String
  externalIDs : List (String × String)
  rules : List LBRule
  opts : LBOpts
  switches : List String
  routers : List String
  groups : List String
deriving DecidableEq

/-- The zero value of `LB` (Go `make([]LB, n)` elements). -/
def zeroLB : LB :=
  ⟨"", "", "", [], [], ⟨false, false, false⟩, [], [], []⟩

/-- An `LB` with its UUID cleared. -/
def clearUUID (lb : LB) : LB :=
  { lb with uuid := "" }

/-- A database load-balancer row as built by `buildLB` /
`libovsdbops.BuildLoadBalancer`. -/
structure NbLB where
  uuid : String
  name : String
  protocol : String
  selectionFields : List String
  vips : List (String × String)
  options : List (String × String)
  externalIDs : List (String × String)
deriving DecidableEq

/-- `buildVipMap`: map each rule's source VIP to its comma-joined targets. -/
def buildVipMap (rules : List LBRule) : List (String × String) :=
  rules.foldl (fun m r => insertA m r.source (String.intercalate "," r.targets)) []

/-- `strings.ToLower`, modelled as per-character lowercasing (the Go call
lower-cases the protocol string character by character). -/
def lowerStr (s : String) : String :=
  ⟨s.data.map Char.toLower⟩

/-- `buildLB`: render a desired spec as a database row: options encode
unidling/reject/skip-NAT as boolean-valued strings, session affinity selects
the ip-src/ip-dst fields, the protocol is lower-cased. -/
def buildLB (lb : LB) : NbLB :=
  { uuid := "",
    name := lb.name,
    protocol := lowerStr lb.protocol,
    selectionFields := if lb.opts.affinity then ["ip_src", "ip_dst"] else [],
    vips := buildVipMap lb.rules,
    options :=
      [("reject", if lb.opts.unidling then "false" else "true"),
        ("event", if lb.opts.unidling then "true" else "false"),
        ("skip_snat", if lb.opts.skipSNAT then "true" else "false")],
    externalIDs := lb.externalIDs }

/-- An existing row found under the ownership tag
(`FindLoadBalancersByExternalIDs`): its UUID and Name. -/
structure ExistingLB where
  uuid : String
  name : String
deriving DecidableEq

/-- One step of the first `EnsureLBs` loop: every row's UUID enters the
pending-delete set; a name collision deletes the name-map entry, otherwise
the row is recorded under its name. -/
def collectStep (acc : List String × List (String × ExistingLB)) (lb : ExistingLB) :
    List String × List (String × ExistingLB) :=
  match lookupA acc.2 lb.name with
  | some _ => (insertS acc.1 lb.uuid, eraseA acc.2 lb.name)
  | none => (insertS acc.1 lb.uuid, insertA acc.2 lb.name lb)

/-- The first `EnsureLBs` loop: the initial pending-delete set and the
name-to-row map over all existing rows. -/
def collectExisting (existing : List ExistingLB) :
    List String × List (String × ExistingLB) :=
  existing.foldl collectStep ([], [])

/-- Alternation of the name-map entry for one name as same-named rows are
scanned: a registered row is knocked out by the next collision, a missing
entry is re-filled by the next row. -/
def collideFlip (st : Option ExistingLB) (r : ExistingLB) : Option ExistingLB :=
  match st with
  | some _ => none
  | none => some r

/-- The operation sets committed by `EnsureLBs` in one transaction: row
updates, row creations, add/remove attachment maps per switch, router and
group name, and the pending-delete set. -/
structure EnsureOps where
  existinglbs : List NbLB
  newlbs : List NbLB
  addSw : List (String × List NbLB)
  remSw : List (String × List NbLB)
  addRt : List (String × List NbLB)
  remRt : List (String × List NbLB)
  addGp : List (String × List NbLB)
  remGp : List (String × List NbLB)
  toDelete : List String
deriving DecidableEq

/-- `mapLBDifferenceByKey`: append the row under every key of the given list
(the caller passes a set difference). -/
def addToKeyMap (m : List (String × List NbLB)) (ks : List String) (blb : NbLB) :
    List (String × List NbLB) :=
  ks.foldl (fun m k => insertA m k ((lookupA m k).getD [] ++ [blb])) m

/-- Plain set difference of attachment target names (`sets.String.Difference`):
names in `want` and not in `excl`, each name once. -/
def diffKeys (want excl : List String) : List String :=
  want.dedup.filter (fun k => decide (k ∉ excl))

/-- The row built for a desired spec: reuses the same-named existing row's
UUID when one is recorded, otherwise keeps the empty UUID (a new row). -/
def builtFor (byName : List (String × ExistingLB)) (lb : LB) : NbLB :=
  match lookupA byName lb.name with
  | some ex => { buildLB lb with uuid := ex.uuid }
  | none => buildLB lb

/-- The existing attachment set of the row matched by name, empty when the
spec matches no existing row. -/
def exAtt (byName : List (String × ExistingLB)) (att : List (String × List String))
    (lb : LB) : List String :=
  match lookupA byName lb.name with
  | some ex => (lookupA att ex.uuid).getD []
  | none => []

/-- One step of the second `EnsureLBs` loop: route the built row to the
update or create list, drop a reused UUID from the pending-delete set, and
record the per-target add/remove attachment differences. -/
def processOne (byName : List (String × ExistingLB))
    (sw rt gp : List (String × List String)) (acc : EnsureOps) (lb : LB) : EnsureOps :=
  let blb := builtFor byName lb
  let base :=
    match lookupA byName lb.name with
    | some ex =>
      { acc with
          existinglbs := acc.existinglbs ++ [blb],
          toDelete := acc.toDelete.filter (fun u => decide (u ≠ ex.uuid)) }
    | none => { acc with newlbs := acc.newlbs ++ [blb] }
  { base with
      addSw := addToKeyMap acc.addSw (diffKeys lb.switches (exAtt byName sw lb)) blb,
      remSw := addToKeyMap acc.remSw (diffKeys (exAtt byName sw lb) lb.switches) blb,
      addRt := addToKeyMap acc.addRt (diffKeys lb.routers (exAtt byName rt lb)) blb,
      remRt := addToKeyMap acc.remRt (diffKeys (exAtt byName rt lb) lb.routers) blb,
      addGp := addToKeyMap acc.addGp (diffKeys lb.groups (exAtt byName gp lb)) blb,
      remGp := addToKeyMap acc.remGp (diffKeys (exAtt byName gp lb) lb.groups) blb }

/-- `EnsureLBs`: the operation sets computed for the committed transaction
from the existing rows under the ownership tag, the reverse attachment
snapshots (LB UUID to switch/router/group names) and the desired specs. -/
def EnsureLBs (existing : List ExistingLB) (sw rt gp : List (String × List String))
    (LBs : List LB) : EnsureOps :=
  let start := collectExisting existing
  LBs.foldl (processOne start.2 sw rt gp)
    ⟨[], [], [], [], [], [], [], [], start.1⟩

/-- `LoadBalancersEqualNoUUID`: length check, then `reflect.DeepEqual` of the
two slices built by `make([]LB, len)` followed by appends of the
UUID-cleared elements (the `make` length leaves a zero-value prefix). -/
def LoadBalancersEqualNoUUID (lbs1 lbs2 : List LB) : Bool :=
  if lbs1.length ≠ lbs2.length then false
  else
    decide
      (List.replicate lbs1.length zeroLB ++ lbs1.map clearUUID =
        List.replicate lbs2.length zeroLB ++ lbs2.map clearUUID)

/-! ## Theorems

### Association-list map lemmas -/
theorem lookupA_nil {α β : Type} [DecidableEq α] (k : α) :
    lookupA ([] : List (α × β)) k = none := rfl

theorem lookupA_cons {α β : Type} [DecidableEq α] (p : α × β) (l : List (α × β)) (k : α) :
    lookupA (p :: l) k = if p.1 = k then some p.2 else lookupA l k := by
  by_cases h : p.1 = k
  · simp [lookupA, List.find?, h]
  · simp [lookupA, List.find?, h]

theorem lookupA_eraseA_self {α β : Type} [DecidableEq α] (l : List (α × β)) (k : α) :
    lookupA (eraseA l k) k = none := by
  induction l with
  | nil => rfl
  | cons p t ih =>
    by_cases h : p.1 = k
    · simpa [eraseA, h] using ih
    · simpa [eraseA, h, lookupA_cons] using ih

theorem lookupA_eraseA_ne {α β : Type} [DecidableEq α] (l : List (α × β)) (k k' : α)
    (h : k' ≠ k) : lookupA (eraseA l k) k' = lookupA l k' := by
  induction l with
  | nil => rfl
  | cons p t ih =>
    by_cases hp : p.1 = k
    · have hp' : ¬ p.1 = k' := by rw [hp]; exact fun hc => h hc.symm
      have he : eraseA (p :: t) k = eraseA t k := by
        simp [eraseA, List.filter_cons, hp]
      rw [he, ih, lookupA_cons, if_neg hp']
    · have he : eraseA (p :: t) k = p :: eraseA t k := by
        simp [eraseA, List.filter_cons, hp]
      rw [he, lookupA_cons, lookupA_cons, ih]

theorem lookupA_insertA_self {α β : Type} [DecidableEq α] (l : List (α × β)) (k : α) (v : β) :
    lookupA (insertA l k v) k = some v := by
  simp [insertA, lookupA_cons]

theorem lookupA_insertA_ne {α β : Type} [DecidableEq α] (l : List (α × β)) (k k' : α) (v : β)
    (h : k' ≠ k) : lookupA (insertA l k v) k' = lookupA l k' := by
  rw [insertA, lookupA_cons, if_neg (fun hc => h hc.symm), lookupA_eraseA_ne l k k' h]

theorem eraseA_eraseA {α β : Type} [DecidableEq α] (l : List (α × β)) (k : α) :
    eraseA (eraseA l k) k = eraseA l k := by
  simp [eraseA, List.filter_filter]

theorem eraseA_insertA_self {α β : Type} [DecidableEq α] (l : List (α × β)) (k : α) (v : β) :
    eraseA (insertA l k v) k = eraseA l k := by
  simp [insertA, eraseA, List.filter_filter]

theorem insertA_insertA_self {α β : Type} [DecidableEq α] (l : List (α × β)) (k : α) (v w : β) :
    insertA (insertA l k v) k w = insertA l k w := by
  show (k, w) :: eraseA (insertA l k v) k = (k, w) :: eraseA l k
  rw [eraseA_insertA_self]

theorem eraseA_eq_self_of_lookupA_none {α β : Type} [DecidableEq α] (l : List (α × β)) (k : α)
    (h : lookupA l k = none) : eraseA l k = l := by
  induction l with
  | nil => rfl
  | cons p t ih =>
    rw [lookupA_cons] at h
    by_cases hp : p.1 = k
    · simp [hp] at h
    · have ht : lookupA t k = none := by simpa [hp] using h
      simp [eraseA, hp] at ih ⊢
      exact ih ht

theorem lookupA_mem {α β : Type} [DecidableEq α] {l : List (α × β)} {k : α} {v : β}
    (h : lookupA l k = some v) : (k, v) ∈ l := by
  induction l with
  | nil => simp [lookupA] at h
  | cons p t ih =>
    obtain ⟨a, b⟩ := p
    rw [lookupA_cons] at h
    by_cases hp : a = k
    · rw [if_pos hp] at h
      injection h with h2
      subst hp
      subst h2
      exact List.mem_cons_self _ _
    · rw [if_neg hp] at h
      exact List.mem_cons_of_mem _ (ih h)

theorem lookupA_eq_none_iff {α β : Type} [DecidableEq α] (l : List (α × β)) (k : α) :
    lookupA l k = none ↔ ∀ p ∈ l, p.1 ≠ k := by
  induction l with
  | nil => simp [lookupA]
  | cons p t ih =>
    rw [lookupA_cons]
    by_cases hp : p.1 = k
    · simp [hp]
    · simp [hp, ih]

theorem keys_nodup_eraseA {α β : Type} [DecidableEq α] (l : List (α × β)) (k : α)
    (h : (l.map Prod.fst).Nodup) : ((eraseA l k).map Prod.fst).Nodup := by
  have : (eraseA l k).Sublist l := List.filter_sublist l
  exact ((this.map Prod.fst).nodup h)

theorem keys_nodup_insertA {α β : Type} [DecidableEq α] (l : List (α × β)) (k : α) (v : β)
    (h : (l.map Prod.fst).Nodup) : ((insertA l k v).map Prod.fst).Nodup := by
  rw [insertA]
  refine List.nodup_cons.2 ⟨?_, keys_nodup_eraseA l k h⟩
  intro hmem
  simp only [List.mem_map] at hmem
  obtain ⟨p, hp, hpk⟩ := hmem
  have := lookupA_eraseA_self l k
  rw [lookupA_eq_none_iff] at this
  exact this p hp hpk


theorem mem_insertS (l : List String) (x y : String) :
    y ∈ insertS l x ↔ y ∈ l ∨ y = x := by
  by_cases h : x ∈ l
  · simp only [insertS, if_pos h]
    constructor
    · exact Or.inl
    · rintro (hy | rfl)
      · exact hy
      · exact h
  · simp [insertS, if_neg h]


/-! ### Claim C10: disabled network segmentation -/

/-- C10: whenever network-segmentation support is disabled,
`GetActiveNetworkForNamespace` returns the default network placeholder with
no error for every namespace, independently of the registry state and of the
database-backed secondary source (so neither `primaryNADs`, `nads` nor the
UDN listing influences the result). -/
theorem c10_segmentation_disabled (s : CState) (udns : List UDN) (ns : String) :
    GetActiveNetworkForNamespace false s udns ns = ActiveResult.defaultNet := rfl

/-! ### Claim C8: UUID-insensitive list comparison -/

/-- C8: `LoadBalancersEqualNoUUID` returns true exactly when the two lists
have equal length and are pairwise equal in list order after clearing UUIDs;
in particular it accepts any element-by-element substitution of UUIDs. -/
theorem c8_equal_no_uuid :
    (∀ lbs1 lbs2 : List LB, LoadBalancersEqualNoUUID lbs1 lbs2 = true ↔
      (lbs1.length = lbs2.length ∧ lbs1.map clearUUID = lbs2.map clearUUID)) ∧
    (∀ pairs : List (LB × String),
      LoadBalancersEqualNoUUID (pairs.map Prod.fst)
        (pairs.map (fun p => { p.1 with uuid := p.2 })) = true) := by
  have h1 : ∀ lbs1 lbs2 : List LB, LoadBalancersEqualNoUUID lbs1 lbs2 = true ↔
      (lbs1.length = lbs2.length ∧ lbs1.map clearUUID = lbs2.map clearUUID) := by
    intro lbs1 lbs2
    by_cases hlen : lbs1.length = lbs2.length
    · rw [LoadBalancersEqualNoUUID, if_neg (not_not_intro hlen), decide_eq_true_eq]
      constructor
      · intro h
        refine ⟨hlen, ?_⟩
        rw [hlen] at h
        exact List.append_cancel_left h
      · rintro ⟨-, h⟩
        rw [h, hlen]
    · rw [LoadBalancersEqualNoUUID, if_pos hlen]
      simp [hlen]
  refine ⟨h1, ?_⟩
  intro pairs
  rw [h1]
  constructor
  · simp
  · induction pairs with
    | nil => rfl
    | cons p t _ =>
      simp [clearUUID]

/-! ### Claim C1: deletion and primary-conflict guard -/

theorem decideBranch_nil_ensN (key : Key) (s : CState) :
    ∃ oldN err, decideBranch key none s = (oldN, none, err) := by
  unfold decideBranch
  split
  · exact ⟨_, _, rfl⟩
  · rename_i cur heq
    have hne : netEquals cur none = false := rfl
    rw [hne]
    simp only [Bool.false_eq_true, if_false]
    by_cases hs : soleRef cur key = true
    · rw [if_pos hs]
      exact ⟨_, _, rfl⟩
    · rw [if_neg hs]
      exact ⟨_, _, rfl⟩

theorem syncNAD_nil_state (key : Key) (s : CState) :
    (syncNAD key Decl.nil s).state.nads = eraseA s.nads key ∧
    (syncNAD key Decl.nil s).state.primaryNADs = clearPrimaryIfKey s.primaryNADs key := by
  show (syncNADCore key none s).state.nads = _ ∧
    (syncNADCore key none s).state.primaryNADs = _
  rw [syncNADCore]
  have hg : guardFired key none s = false := rfl
  rw [hg]
  simp only [Bool.false_eq_true, if_false]
  obtain ⟨oldN, err, hd⟩ := decideBranch_nil_ensN key s
  rw [hd]
  exact ⟨rfl, rfl⟩

/-- C1, corrected: a deletion sync always clears the key from `nads` (and
clears the namespace's `primaryNADs` entry exactly when it recorded this
key); but when the primary-conflict guard fires, `syncNAD` returns the
conflict error with the registry unchanged — in particular the key stays in
`nads` when it was tracked, and the recorded primary (which the guard
guarantees is a different key) is untouched. -/
theorem c1_amended (s : CState) (key : Key) (q : ParsedNAD) :
    ((syncNAD key Decl.nil s).state.nads = eraseA s.nads key ∧
      lookupA (syncNAD key Decl.nil s).state.nads key = none ∧
      (syncNAD key Decl.nil s).state.primaryNADs = clearPrimaryIfKey s.primaryNADs key ∧
      (lookupA s.primaryNADs key.ns = some key →
        lookupA (syncNAD key Decl.nil s).state.primaryNADs key.ns = none)) ∧
    (q.conf.primary = true →
      ∀ pk, lookupA s.primaryNADs key.ns = some pk → pk ≠ key →
        syncNAD key (Decl.parsed q) s = ⟨s, [], some SyncErr.primaryConflict⟩) := by
  obtain ⟨h1, h2⟩ := syncNAD_nil_state key s
  refine ⟨⟨h1, ?_, h2, ?_⟩, ?_⟩
  · rw [h1]
    exact lookupA_eraseA_self s.nads key
  · intro hk
    rw [h2, clearPrimaryIfKey, if_pos hk]
    exact lookupA_eraseA_self s.primaryNADs key.ns
  · intro hprim pk hpk hne
    show syncNADCore key (some q) s = _
    rw [syncNADCore]
    have hg : guardFired key (some q) s = true := by
      simp [guardFired, hpk, hprim, hne]
    rw [hg]
    rfl

/-- C1, counterexample to the claim as stated: in a reachable state where
`ns1/b` is tracked (bound to network `X`) and `ns1/a` is the namespace's
recorded primary, syncing `ns1/b` with a parsed primary network fires the
primary-conflict guard — yet afterwards `ns1/b` is still present in `nads`,
contradicting the claim that the key is absent after a guard-fired sync. -/
theorem c1_counterexample :
    lookupA
      ((syncNAD kB
        (Decl.parsed ⟨"X", ⟨"layer2", "10.0.0.0/16", 1400, true⟩⟩)
        ((syncNAD kB (Decl.parsed ⟨"X", conf1⟩)
          ((syncNAD kA (Decl.parsed ⟨"P", confP⟩) emptyState).state)).state)).state).nads
      kB = some "X" ∧
    (syncNAD kB
        (Decl.parsed ⟨"X", ⟨"layer2", "10.0.0.0/16", 1400, true⟩⟩)
        ((syncNAD kB (Decl.parsed ⟨"X", conf1⟩)
          ((syncNAD kA (Decl.parsed ⟨"P", confP⟩) emptyState).state)).state)).err
      = some SyncErr.primaryConflict := by
  constructor
  · decide
  · decide

theorem c1_amended_witness :
    ((syncNAD kB Decl.nil
        ⟨[(kB, "X")], [("ns1", kA)], [("X", ⟨"X", conf1, [kB]⟩)]⟩).state.nads = [] ∧
      syncNAD kB (Decl.parsed ⟨"X", confP⟩)
        ⟨[(kB, "X")], [("ns1", kA)], [("X", ⟨"X", conf1, [kB]⟩)]⟩
        = ⟨⟨[(kB, "X")], [("ns1", kA)], [("X", ⟨"X", conf1, [kB]⟩)]⟩, [],
            some SyncErr.primaryConflict⟩) := by
  have h := c1_amended ⟨[(kB, "X")], [("ns1", kA)], [("X", ⟨"X", conf1, [kB]⟩)]⟩ kB
    ⟨"X", confP⟩
  refine ⟨?_, h.2 (by decide) kA (by decide) (by decide)⟩
  have h1 := h.1.1
  rw [h1]
  decide

/-! ### Claim C2: conflict on a same-named incompatible network -/

/-- C2, corrected: when a key's declaration parses to the network name it is
already bound to, the existing network is incompatible and referenced by
other keys, and additionally the primary-conflict guard does not fire, then
`syncNAD` reports the config-conflict error yet still executes the detach:
the key's reference is removed from the network, the network (whose
reference set stays nonempty thanks to the other referencers) is re-ensured
with the reduced set, and the key is cleared from `nads`. -/
theorem c2_amended (s : CState) (key : Key) (q : ParsedNAD) (cur : Network)
    (hbound : lookupA s.nads key = some q.netName)
    (hcur : lookupA s.networks q.netName = some cur)
    (hneq : netEquals cur (some q) = false)
    (k2 : Key) (hk2 : k2 ∈ cur.nads) (hk2ne : k2 ≠ key)
    (hguard : guardFired key (some q) s = false) :
    (syncNAD key (Decl.parsed q) s).err = some SyncErr.configConflict ∧
    (syncNAD key (Decl.parsed q) s).state.nads = eraseA s.nads key ∧
    lookupA (syncNAD key (Decl.parsed q) s).state.nads key = none ∧
    (syncNAD key (Decl.parsed q) s).events =
      [Event.ensure { cur with nads := removeNAD cur.nads key }] ∧
    lookupA (syncNAD key (Decl.parsed q) s).state.networks cur.name =
      some { cur with nads := removeNAD cur.nads key } := by
  have hk2' : k2 ∈ removeNAD cur.nads key := by
    rw [removeNAD]
    refine List.mem_filter.2 ⟨hk2, ?_⟩
    simp [hk2ne]
  have hnonempty : ¬ (removeNAD cur.nads key = []) := by
    intro h
    rw [h] at hk2'
    cases hk2'
  have hsole : soleRef cur key = false := by
    rw [soleRef]
    rw [List.all_eq_false]
    exact ⟨k2, hk2, by simp [hk2ne]⟩
  have hprev : prevNameOf key s = q.netName := by
    rw [prevNameOf, hbound]
    rfl
  have hold : oldNet0 key (some q) s = none := by
    rw [oldNet0, hprev]
    simp [nameOf]
  have hcur' : lookupA s.networks (nameOf (some q)) = some cur := hcur
  have hdec : decideBranch key (some q) s =
      (some cur, none, some SyncErr.configConflict) := by
    unfold decideBranch
    rw [hcur']
    simp only [hneq, Bool.false_eq_true, if_false, hsole, hold, Option.getD]
  have hdetach : detach key (some cur) s.networks =
      ([Event.ensure { cur with nads := removeNAD cur.nads key }],
        insertA s.networks cur.name { cur with nads := removeNAD cur.nads key }) := by
    rw [detach]
    rw [if_neg hnonempty]
  have hcore : syncNAD key (Decl.parsed q) s =
      applyDecision key s (some cur, none, some SyncErr.configConflict) := by
    show syncNADCore key (some q) s = _
    rw [syncNADCore, hguard]
    simp only [Bool.false_eq_true, if_false]
    rw [hdec]
  have happ : applyDecision key s (some cur, none, some SyncErr.configConflict) =
      ⟨⟨eraseA s.nads key, clearPrimaryIfKey s.primaryNADs key,
          (detach key (some cur) s.networks).2⟩,
        (detach key (some cur) s.networks).1, some SyncErr.configConflict⟩ := rfl
  rw [hcore, happ, hdetach]
  refine ⟨rfl, rfl, lookupA_eraseA_self s.nads key, rfl, ?_⟩
  exact lookupA_insertA_self _ cur.name _

/-- C2, counterexample to the claim as stated: in a reachable state where
`ns1/a` is the recorded primary for `ns1`, `ns1/b` is bound to network `X`,
and `ns2/c` also references `X`, syncing `ns1/b` with an incompatible parse
of `X` that is additionally primary satisfies every condition of the claim —
yet the primary-conflict guard preempts the switch: the sync returns the
primary-conflict error, the state is unchanged, the key stays in `nads` and
the network keeps the key's reference, so the claimed detach does not
execute. -/
theorem c2_counterexample :
    (syncNAD kB (Decl.parsed ⟨"X", ⟨"layer2", "10.0.0.0/16", 1400, true⟩⟩)
        ((syncNAD kC (Decl.parsed ⟨"X", conf1⟩)
          ((syncNAD kB (Decl.parsed ⟨"X", conf1⟩)
            ((syncNAD kA (Decl.parsed ⟨"P", confP⟩) emptyState).state)).state)).state)).err
      = some SyncErr.primaryConflict ∧
    (syncNAD kB (Decl.parsed ⟨"X", ⟨"layer2", "10.0.0.0/16", 1400, true⟩⟩)
        ((syncNAD kC (Decl.parsed ⟨"X", conf1⟩)
          ((syncNAD kB (Decl.parsed ⟨"X", conf1⟩)
            ((syncNAD kA (Decl.parsed ⟨"P", confP⟩) emptyState).state)).state)).state)).state
      = (syncNAD kC (Decl.parsed ⟨"X", conf1⟩)
          ((syncNAD kB (Decl.parsed ⟨"X", conf1⟩)
            ((syncNAD kA (Decl.parsed ⟨"P", confP⟩) emptyState).state)).state)).state ∧
    lookupA
      ((syncNAD kB (Decl.parsed ⟨"X", ⟨"layer2", "10.0.0.0/16", 1400, true⟩⟩)
        ((syncNAD kC (Decl.parsed ⟨"X", conf1⟩)
          ((syncNAD kB (Decl.parsed ⟨"X", conf1⟩)
            ((syncNAD kA (Decl.parsed ⟨"P", confP⟩) emptyState).state)).state)).state)).state).nads
      kB = some "X" := by
  refine ⟨by decide, by decide, by decide⟩

theorem c2_amended_witness :
    (syncNAD kB (Decl.parsed ⟨"X", conf2⟩)
        ⟨[(kB, "X"), (kC, "X")], [], [("X", ⟨"X", conf1, [kB, kC]⟩)]⟩).err
      = some SyncErr.configConflict ∧
    lookupA
      ((syncNAD kB (Decl.parsed ⟨"X", conf2⟩)
        ⟨[(kB, "X"), (kC, "X")], [], [("X", ⟨"X", conf1, [kB, kC]⟩)]⟩).state).nads
      kB = none ∧
    lookupA
      ((syncNAD kB (Decl.parsed ⟨"X", conf2⟩)
        ⟨[(kB, "X"), (kC, "X")], [], [("X", ⟨"X", conf1, [kB, kC]⟩)]⟩).state).networks
      "X" = some ⟨"X", conf1, [kC]⟩ := by
  have h := c2_amended ⟨[(kB, "X"), (kC, "X")], [], [("X", ⟨"X", conf1, [kB, kC]⟩)]⟩
    kB ⟨"X", conf2⟩ ⟨"X", conf1, [kB, kC]⟩ (by decide) (by decide) (by decide)
    kC (by decide) (by decide) (by decide)
  refine ⟨h.1, h.2.2.1, ?_⟩
  have h5 := h.2.2.2.2
  rw [show ((⟨"X", conf1, [kB, kC]⟩ : Network).name) = "X" from rfl] at h5
  rw [h5]
  decide

/-! ### Helper lemmas for the registry invariant -/

theorem lookupA_eraseA_cases {α β : Type} [DecidableEq α] {l : List (α × β)} {k x : α} {w : β}
    (h : lookupA (eraseA l k) x = some w) : x ≠ k ∧ lookupA l x = some w := by
  by_cases hx : x = k
  · subst hx
    rw [lookupA_eraseA_self] at h
    cases h
  · exact ⟨hx, by rw [← lookupA_eraseA_ne l k x hx]; exact h⟩

theorem lookupA_insertA_cases {α β : Type} [DecidableEq α] {l : List (α × β)} {k x : α}
    {v w : β} (h : lookupA (insertA l k v) x = some w) :
    (x = k ∧ w = v) ∨ (x ≠ k ∧ lookupA l x = some w) := by
  by_cases hx : x = k
  · subst hx
    rw [lookupA_insertA_self] at h
    injection h with h2
    exact Or.inl ⟨rfl, h2.symm⟩
  · rw [lookupA_insertA_ne l k x v hx] at h
    exact Or.inr ⟨hx, h⟩

theorem mem_addNAD (l : List Key) (k x : Key) : x ∈ addNAD l k ↔ x ∈ l ∨ x = k := by
  rw [addNAD]
  by_cases h : k ∈ l
  · rw [if_pos h]
    constructor
    · exact Or.inl
    · rintro (hx | rfl)
      · exact hx
      · exact h
  · rw [if_neg h]
    simp

theorem self_mem_addNAD (l : List Key) (k : Key) : k ∈ addNAD l k :=
  (mem_addNAD l k k).2 (Or.inr rfl)

theorem addNAD_ne_nil (l : List Key) (k : Key) : addNAD l k ≠ [] := by
  intro h
  have := self_mem_addNAD l k
  rw [h] at this
  cases this

theorem mem_removeNAD (l : List Key) (k x : Key) : x ∈ removeNAD l k ↔ x ∈ l ∧ x ≠ k := by
  rw [removeNAD]
  simp [List.mem_filter]

theorem removeNAD_nil_forall {l : List Key} {k : Key} (h : removeNAD l k = []) :
    ∀ x ∈ l, x = k := by
  intro x hx
  by_contra hne
  have : x ∈ removeNAD l k := (mem_removeNAD l k x).2 ⟨hx, hne⟩
  rw [h] at this
  cases this

theorem detach_none_eq (key : Key) (nm : List (String × Network)) :
    detach key none nm = ([], nm) := rfl

theorem detach_some_del (key : Key) (old : Network) (nm : List (String × Network))
    (h : removeNAD old.nads key = []) :
    detach key (some old) nm = ([Event.deleteNet old.name], eraseA nm old.name) := by
  rw [detach, if_pos h]

theorem detach_some_keep (key : Key) (old : Network) (nm : List (String × Network))
    (h : ¬ removeNAD old.nads key = []) :
    detach key (some old) nm =
      ([Event.ensure { old with nads := removeNAD old.nads key }],
        insertA nm old.name { old with nads := removeNAD old.nads key }) := by
  rw [detach, if_neg h]

theorem clearPrimary_lookup (pm : List (String × Key)) (key : Key)
    (h5 : ∀ ns k, lookupA pm ns = some k → k.ns = ns) :
    ∀ ns k, lookupA (clearPrimaryIfKey pm key) ns = some k →
      lookupA pm ns = some k ∧ k ≠ key := by
  intro ns k hk
  rw [clearPrimaryIfKey] at hk
  by_cases hc : lookupA pm key.ns = some key
  · rw [if_pos hc] at hk
    obtain ⟨hne, hpm⟩ := lookupA_eraseA_cases hk
    refine ⟨hpm, ?_⟩
    intro hkey
    subst hkey
    exact hne (h5 ns k hpm).symm
  · rw [if_neg hc] at hk
    refine ⟨hk, ?_⟩
    intro hkey
    subst hkey
    have hns := h5 ns k hk
    rw [hns] at hc
    exact hc hk

theorem clearPrimary_nodup (pm : List (String × Key)) (key : Key)
    (h : (pm.map Prod.fst).Nodup) :
    ((clearPrimaryIfKey pm key).map Prod.fst).Nodup := by
  rw [clearPrimaryIfKey]
  by_cases hc : lookupA pm key.ns = some key
  · rw [if_pos hc]
    exact keys_nodup_eraseA pm key.ns h
  · rw [if_neg hc]
    exact h

theorem setPrimary_lookup (pm : List (String × Key)) (key : Key) (en : Network)
    (h5 : ∀ ns k, lookupA pm ns = some k → k.ns = ns) :
    ∀ ns k, lookupA (setPrimary pm key en) ns = some k →
      k.ns = ns ∧ (k = key ∨ (lookupA pm ns = some k ∧ k ≠ key)) := by
  intro ns k hk
  rw [setPrimary] at hk
  by_cases hp : en.conf.primary = true
  · rw [if_pos hp] at hk
    rcases lookupA_insertA_cases hk with ⟨hns, hkk⟩ | ⟨hns, hpm⟩
    · subst hns
      subst hkk
      exact ⟨rfl, Or.inl rfl⟩
    · have hkns := h5 ns k hpm
      have hne : k ≠ key := by
        intro he
        rw [he] at hkns
        exact hns hkns.symm
      exact ⟨hkns, Or.inr ⟨hpm, hne⟩⟩
  · rw [if_neg hp] at hk
    obtain ⟨hcl, hne⟩ := clearPrimary_lookup pm key h5 ns k hk
    exact ⟨h5 ns k hcl, Or.inr ⟨hcl, hne⟩⟩

theorem detach_inv12 (key : Key) (oldN : Option Network) (nm : List (String × Network))
    (h1 : ∀ n net, lookupA nm n = some net → net.name = n ∧ n ≠ "")
    (h2 : ∀ n net, lookupA nm n = some net → net.nads ≠ [])
    (hA1 : ∀ o, oldN = some o → lookupA nm o.name = some o) :
    (∀ n net, lookupA (detach key oldN nm).2 n = some net → net.name = n ∧ n ≠ "") ∧
    (∀ n net, lookupA (detach key oldN nm).2 n = some net → net.nads ≠ []) := by
  rcases oldN with _ | o
  · exact ⟨h1, h2⟩
  · have ho := hA1 o rfl
    by_cases hdel : removeNAD o.nads key = []
    · rw [detach_some_del key o nm hdel]
      exact ⟨fun n net h => h1 n net (lookupA_eraseA_cases h).2,
        fun n net h => h2 n net (lookupA_eraseA_cases h).2⟩
    · rw [detach_some_keep key o nm hdel]
      constructor
      · intro n net h
        rcases lookupA_insertA_cases h with ⟨hn, hnet⟩ | ⟨-, h'⟩
        · subst hn
          subst hnet
          exact ⟨rfl, (h1 o.name o ho).2⟩
        · exact h1 n net h'
      · intro n net h
        rcases lookupA_insertA_cases h with ⟨-, hnet⟩ | ⟨-, h'⟩
        · subst hnet
          exact hdel
        · exact h2 n net h'

theorem detach_mem (key : Key) (oldN : Option Network) (nm : List (String × Network))
    (h1 : ∀ n net, lookupA nm n = some net → net.name = n ∧ n ≠ "")
    (hA1 : ∀ o, oldN = some o → lookupA nm o.name = some o) :
    ∀ n net k2, lookupA (detach key oldN nm).2 n = some net → k2 ∈ net.nads →
      ∃ net0, lookupA nm n = some net0 ∧ k2 ∈ net0.nads ∧ (k2 = key → oldN ≠ some net0) := by
  intro n net k2 hlk hmem
  rcases oldN with _ | o
  · exact ⟨net, hlk, hmem, fun _ h => by cases h⟩
  · have ho := hA1 o rfl
    by_cases hdel : removeNAD o.nads key = []
    · rw [detach_some_del key o nm hdel] at hlk
      obtain ⟨hne, h'⟩ := lookupA_eraseA_cases hlk
      refine ⟨net, h', hmem, ?_⟩
      intro _ hov
      injection hov with hov
      have hon : o.name = n := by rw [hov]; exact (h1 n net h').1
      exact hne hon.symm
    · rw [detach_some_keep key o nm hdel] at hlk
      rcases lookupA_insertA_cases hlk with ⟨hn, hnet⟩ | ⟨hn, h'⟩
      · subst hn
        subst hnet
        obtain ⟨hmem', hne⟩ := (mem_removeNAD o.nads key k2).1 hmem
        exact ⟨o, ho, hmem', fun hk => absurd hk hne⟩
      · refine ⟨net, h', hmem, ?_⟩
        intro _ hov
        injection hov with hov
        have hon : o.name = n := by rw [hov]; exact (h1 n net h').1
        exact hn hon.symm

theorem detach_exists (key : Key) (oldN : Option Network) (nm : List (String × Network))
    (hA1 : ∀ o, oldN = some o → lookupA nm o.name = some o) :
    ∀ k2 n net, k2 ≠ key → lookupA nm n = some net → k2 ∈ net.nads →
      ∃ net2, lookupA (detach key oldN nm).2 n = some net2 ∧ k2 ∈ net2.nads := by
  intro k2 n net hne hlk hmem
  rcases oldN with _ | o
  · exact ⟨net, hlk, hmem⟩
  · have ho := hA1 o rfl
    by_cases hdel : removeNAD o.nads key = []
    · rw [detach_some_del key o nm hdel]
      by_cases hn : n = o.name
      · subst hn
        rw [ho] at hlk
        injection hlk with hlk
        subst hlk
        exact absurd (removeNAD_nil_forall hdel k2 hmem) hne
      · exact ⟨net, by rw [lookupA_eraseA_ne nm o.name n hn]; exact hlk, hmem⟩
    · rw [detach_some_keep key o nm hdel]
      by_cases hn : n = o.name
      · subst hn
        rw [ho] at hlk
        injection hlk with hlk
        subst hlk
        refine ⟨{ o with nads := removeNAD o.nads key }, lookupA_insertA_self _ _ _, ?_⟩
        exact (mem_removeNAD o.nads key k2).2 ⟨hmem, hne⟩
      · exact ⟨net, by rw [lookupA_insertA_ne _ o.name n _ hn]; exact hlk, hmem⟩

theorem regInv_applyNone (key : Key) (s : CState) (oldN : Option Network) (err : Option SyncErr)
    (hinv : RegInv s)
    (hA1 : ∀ o, oldN = some o → lookupA s.networks o.name = some o)
    (hA2 : ∀ n net, lookupA s.networks n = some net → key ∈ net.nads → oldN = some net) :
    RegInv (applyDecision key s (oldN, none, err)).state := by
  obtain ⟨h1, h2, h3, h4, h5, h6⟩ := hinv
  have hstate : (applyDecision key s (oldN, none, err)).state =
      ⟨eraseA s.nads key, clearPrimaryIfKey s.primaryNADs key,
        (detach key oldN s.networks).2⟩ := rfl
  rw [hstate]
  obtain ⟨hn1, hn2⟩ := detach_inv12 key oldN s.networks h1 h2 hA1
  have hmem := detach_mem key oldN s.networks h1 hA1
  have hex := detach_exists key oldN s.networks hA1
  refine ⟨hn1, hn2, ?_, ?_, ?_, ?_⟩
  · -- a tracked key's network is registered and lists the key
    intro k n hk
    obtain ⟨hkne, hk'⟩ := lookupA_eraseA_cases hk
    obtain ⟨net, hnet, hmem2⟩ := h3 k n hk'
    exact hex k n net hkne hnet hmem2
  · -- a registered network's references are tracked to it
    intro n net k2 hlk hk2
    obtain ⟨net0, hnet0, hmem0, hnotold⟩ := hmem n net k2 hlk hk2
    have hk2ne : k2 ≠ key := by
      intro hk
      exact hnotold hk (hA2 n net0 hnet0 (hk ▸ hmem0))
    rw [lookupA_eraseA_ne s.nads key k2 hk2ne]
    exact h4 n net0 k2 hnet0 hmem0
  · -- recorded primary keys stay tracked
    intro ns k hk
    obtain ⟨hpm, hkne⟩ := clearPrimary_lookup s.primaryNADs key
      (fun ns k h => (h5 ns k h).1) ns k hk
    obtain ⟨hns, n, hn⟩ := h5 ns k hpm
    exact ⟨hns, n, by rw [lookupA_eraseA_ne s.nads key k hkne]; exact hn⟩
  · exact clearPrimary_nodup s.primaryNADs key h6

theorem regInv_applySome (key : Key) (s : CState) (oldN : Option Network) (en : Network)
    (err : Option SyncErr) (hinv : RegInv s)
    (hB1 : ∀ o, oldN = some o → lookupA s.networks o.name = some o)
    (hB2 : ∀ n net, lookupA s.networks n = some net → key ∈ net.nads →
      oldN = some net ∨ net = en)
    (hB3 : en.name ≠ "")
    (hB4 : lookupA s.networks en.name = some en ∨ en.nads = [])
    (hB7 : ∀ net, lookupA s.networks en.name = some net → ∀ k2 ∈ net.nads,
      k2 = key ∨ net = en) :
    RegInv (applyDecision key s (oldN, some en, err)).state := by
  obtain ⟨h1, h2, h3, h4, h5, h6⟩ := hinv
  have hstate : (applyDecision key s (oldN, some en, err)).state =
      ⟨insertA s.nads key en.name, setPrimary s.primaryNADs key en,
        insertA (detach key oldN s.networks).2 en.name (ensured en key)⟩ := rfl
  rw [hstate]
  obtain ⟨hn1, hn2⟩ := detach_inv12 key oldN s.networks h1 h2 hB1
  have hmem := detach_mem key oldN s.networks h1 hB1
  have hex := detach_exists key oldN s.networks hB1
  have henname : (ensured en key).name = en.name := rfl
  refine ⟨?_, ?_, ?_, ?_, ?_, ?_⟩
  · -- registry entries keyed by nonempty network name
    intro n net hlk
    rcases lookupA_insertA_cases hlk with ⟨hn, hnet⟩ | ⟨-, h'⟩
    · subst hn
      subst hnet
      exact ⟨henname, hB3⟩
    · exact hn1 n net h'
  · -- registered networks keep a nonempty reference set
    intro n net hlk
    rcases lookupA_insertA_cases hlk with ⟨-, hnet⟩ | ⟨-, h'⟩
    · subst hnet
      exact addNAD_ne_nil en.nads key
    · exact hn2 n net h'
  · -- tracked keys point to registered networks listing them
    intro k n hk
    rcases lookupA_insertA_cases hk with ⟨hkk, hn⟩ | ⟨hkne, hk'⟩
    · refine ⟨ensured en key, ?_, ?_⟩
      · rw [hn]
        exact lookupA_insertA_self _ _ _
      · rw [hkk]
        exact self_mem_addNAD en.nads key
    · obtain ⟨net, hnet, hmem2⟩ := h3 k n hk'
      by_cases hne : n = en.name
      · subst hne
        rcases hB7 net hnet k hmem2 with hkk | hnet_en
        · exact absurd hkk hkne
        · subst hnet_en
          refine ⟨ensured net key, lookupA_insertA_self _ _ _, ?_⟩
          exact (mem_addNAD net.nads key k).2 (Or.inl hmem2)
      · obtain ⟨net2, hnet2, hmem3⟩ := hex k n net hkne hnet hmem2
        refine ⟨net2, ?_, hmem3⟩
        rw [lookupA_insertA_ne _ en.name n _ hne]
        exact hnet2
  · -- registered networks' references are exactly the tracked keys
    intro n net k2 hlk hk2
    rcases lookupA_insertA_cases hlk with ⟨hn, hnet⟩ | ⟨hn, h'⟩
    · subst hn
      subst hnet
      rcases (mem_addNAD en.nads key k2).1 hk2 with hk2en | hk2k
      · rcases hB4 with hen | hnil
        · have hk2ne : k2 ≠ key ∨ k2 = key := (ne_or_eq k2 key)
          rcases hk2ne with hk2ne | hk2k
          · rw [lookupA_insertA_ne s.nads key k2 en.name hk2ne]
            exact h4 en.name en k2 hen hk2en
          · subst hk2k
            rw [lookupA_insertA_self]
        · rw [hnil] at hk2en
          cases hk2en
      · subst hk2k
        rw [lookupA_insertA_self]
    · obtain ⟨net0, hnet0, hmem0, hnotold⟩ := hmem n net k2 h' hk2
      have hk2ne : k2 ≠ key := by
        intro hk
        subst hk
        rcases hB2 n net0 hnet0 hmem0 with hov | hnet_en
        · exact hnotold rfl hov
        · subst hnet_en
          exact hn (h1 n net0 hnet0).1.symm
      rw [lookupA_insertA_ne s.nads key k2 en.name hk2ne]
      exact h4 n net0 k2 hnet0 hmem0
  · -- recorded primary keys stay tracked
    intro ns k hk
    obtain ⟨hns, hcase⟩ := setPrimary_lookup s.primaryNADs key en
      (fun ns k h => (h5 ns k h).1) ns k hk
    refine ⟨hns, ?_⟩
    rcases hcase with hkk | ⟨hpm, hkne⟩
    · subst hkk
      exact ⟨en.name, lookupA_insertA_self _ _ _⟩
    · obtain ⟨-, n, hn⟩ := h5 ns k hpm
      exact ⟨n, by rw [lookupA_insertA_ne s.nads key k en.name hkne]; exact hn⟩
  · -- at most one primary entry per namespace
    rw [setPrimary]
    by_cases hp : en.conf.primary = true
    · rw [if_pos hp]
      exact keys_nodup_insertA s.primaryNADs key.ns key h6
    · rw [if_neg hp]
      exact clearPrimary_nodup s.primaryNADs key h6

theorem networks_empty_name (s : CState)
    (h1 : ∀ n net, lookupA s.networks n = some net → net.name = n ∧ n ≠ "") :
    lookupA s.networks "" = none := by
  cases hcur : lookupA s.networks "" with
  | none => rfl
  | some net => exact absurd rfl (h1 "" net hcur).2

theorem oldNet0_stored (key : Key) (p : Option ParsedNAD) (s : CState)
    (h1 : ∀ n net, lookupA s.networks n = some net → net.name = n ∧ n ≠ "") :
    ∀ o, oldNet0 key p s = some o → lookupA s.networks o.name = some o := by
  intro o ho
  rw [oldNet0] at ho
  by_cases hc : nameOf p ≠ prevNameOf key s
  · rw [if_pos hc] at ho
    rw [(h1 (prevNameOf key s) o ho).1]
    exact ho
  · rw [if_neg hc] at ho
    cases ho

theorem oldNet0_covers (key : Key) (p : Option ParsedNAD) (s : CState)
    (h4 : ∀ n net k, lookupA s.networks n = some net → k ∈ net.nads →
      lookupA s.nads k = some n)
    {n : String} {net : Network} (hstored : lookupA s.networks n = some net)
    (hmem : key ∈ net.nads) (hne : n ≠ nameOf p) :
    oldNet0 key p s = some net := by
  have hnads := h4 n net key hstored hmem
  have hprev : prevNameOf key s = n := by
    rw [prevNameOf, hnads]
    rfl
  rw [oldNet0, hprev, if_pos (fun hc => hne hc.symm)]
  exact hstored

theorem soleRef_forall {cur : Network} {key : Key} (h : soleRef cur key = true) :
    ∀ x ∈ cur.nads, x = key := by
  intro x hx
  rw [soleRef, List.all_eq_true] at h
  have := h x hx
  simpa using this

theorem soleRef_mem {cur : Network} {key : Key} (h : soleRef cur key = true)
    (hne : cur.nads ≠ []) : key ∈ cur.nads := by
  cases hx : cur.nads with
  | nil => exact absurd hx hne
  | cons a t =>
    have ha : a ∈ cur.nads := by rw [hx]; exact List.mem_cons_self a t
    have hak := soleRef_forall h a ha
    rw [← hak]
    exact List.mem_cons_self a t

theorem decideBranch_eq_none_case (key : Key) (p : Option ParsedNAD) (s : CState)
    (hcur : lookupA s.networks (nameOf p) = none) :
    decideBranch key p s = (oldNet0 key p s, p.map freshNet, none) := by
  unfold decideBranch
  rw [hcur]

theorem decideBranch_eq_some_case (key : Key) (p : Option ParsedNAD) (s : CState)
    (cur : Network) (hcur : lookupA s.networks (nameOf p) = some cur) :
    decideBranch key p s =
      (if netEquals cur p then (oldNet0 key p s, some cur, none)
       else if soleRef cur key then (some cur, p.map freshNet, none)
       else (some ((oldNet0 key p s).getD cur), none, some SyncErr.configConflict)) := by
  unfold decideBranch
  rw [hcur]

theorem regInv_syncNADCore (key : Key) (p : Option ParsedNAD) (s : CState)
    (hinv : RegInv s) (hval : ∀ q, p = some q → q.netName ≠ "") :
    RegInv (syncNADCore key p s).state := by
  rw [syncNADCore]
  by_cases hg : guardFired key p s = true
  · rw [if_pos hg]
    exact hinv
  · rw [if_neg hg]
    obtain ⟨h1, h2, h3, h4, h5, h6⟩ := hinv
    have hinv' : RegInv s := ⟨h1, h2, h3, h4, h5, h6⟩
    have hA1g := oldNet0_stored key p s h1
    cases hcur : lookupA s.networks (nameOf p) with
    | none =>
      rw [decideBranch_eq_none_case key p s hcur]
      cases hp : p with
      | none =>
        show RegInv (applyDecision key s (oldNet0 key none s, none, none)).state
        refine regInv_applyNone key s _ none hinv' (hp ▸ hA1g) ?_
        intro n net hstored hmem
        refine oldNet0_covers key none s h4 hstored hmem ?_
        intro hn
        rw [hp] at hcur
        rw [← hn] at hcur
        rw [hcur] at hstored
        cases hstored
      | some q =>
        show RegInv (applyDecision key s (oldNet0 key (some q) s, some (freshNet q), none)).state
        refine regInv_applySome key s _ (freshNet q) none hinv' (hp ▸ hA1g) ?_ ?_ ?_ ?_
        · intro n net hstored hmem
          refine Or.inl (oldNet0_covers key (some q) s h4 hstored hmem ?_)
          intro hn
          rw [hp] at hcur
          rw [← hn] at hcur
          rw [hcur] at hstored
          cases hstored
        · exact hval q hp
        · exact Or.inr rfl
        · intro net hstored
          rw [show (freshNet q).name = nameOf (some q) from rfl] at hstored
          rw [← hp] at hstored
          rw [hcur] at hstored
          cases hstored
    | some cur =>
      have hcurname : cur.name = nameOf p := (h1 (nameOf p) cur hcur).1
      have hcurstored : lookupA s.networks cur.name = some cur := by
        rw [hcurname]
        exact hcur
      rw [decideBranch_eq_some_case key p s cur hcur]
      by_cases heq : netEquals cur p = true
      · rw [if_pos heq]
        refine regInv_applySome key s _ cur none hinv' hA1g ?_ ?_ ?_ ?_
        · intro n net hstored hmem
          by_cases hn : n = nameOf p
          · subst hn
            rw [hcur] at hstored
            injection hstored with hstored
            exact Or.inr hstored.symm
          · exact Or.inl (oldNet0_covers key p s h4 hstored hmem hn)
        · rw [hcurname]
          exact (h1 (nameOf p) cur hcur).2
        · exact Or.inl hcurstored
        · intro net hstored k2 _
          rw [hcurstored] at hstored
          injection hstored with hstored
          exact Or.inr hstored.symm
      · rw [if_neg heq]
        by_cases hsole : soleRef cur key = true
        · rw [if_pos hsole]
          cases hp : p with
          | none =>
            rw [hp] at hcur
            have hnone : lookupA s.networks (nameOf none) = none :=
              networks_empty_name s h1
            rw [hnone] at hcur
            cases hcur
          | some q =>
            show RegInv (applyDecision key s (some cur, some (freshNet q), none)).state
            refine regInv_applySome key s _ (freshNet q) none hinv'
              (fun o ho => by injection ho with ho; rw [← ho]; exact hcurstored) ?_ ?_ ?_ ?_
            · intro n net hstored hmem
              by_cases hn : n = nameOf p
              · subst hn
                rw [hcur] at hstored
                injection hstored with hstored
                exact Or.inl (by rw [hstored])
              · have hnads := h4 n net key hstored hmem
                have hkeycur : key ∈ cur.nads :=
                  soleRef_mem hsole (h2 (nameOf p) cur hcur)
                have hnads2 := h4 (nameOf p) cur key hcur hkeycur
                rw [hnads] at hnads2
                injection hnads2 with hnads2
                exact absurd hnads2 hn
            · exact hval q hp
            · exact Or.inr rfl
            · intro net hstored k2 hk2
              rw [show (freshNet q).name = nameOf (some q) from rfl, ← hp] at hstored
              rw [hcur] at hstored
              injection hstored with hstored
              refine Or.inl ?_
              rw [← hstored] at hk2
              exact soleRef_forall hsole k2 hk2
        · rw [if_neg hsole]
          refine regInv_applyNone key s _ (some SyncErr.configConflict) hinv' ?_ ?_
          · intro o ho
            injection ho with ho
            cases hold : oldNet0 key p s with
            | none =>
              rw [hold] at ho
              rw [← ho]
              exact hcurstored
            | some o2 =>
              rw [hold] at ho
              rw [← ho]
              exact hA1g o2 hold
          · intro n net hstored hmem
            by_cases hn : n = nameOf p
            · subst hn
              rw [hcur] at hstored
              injection hstored with hstored
              have hnads := h4 (nameOf p) net key (hstored ▸ hcur) hmem
              have hprev : prevNameOf key s = nameOf p := by
                rw [prevNameOf, hnads]
                rfl
              have hold : oldNet0 key p s = none := by
                rw [oldNet0, hprev, if_neg (fun hc => hc rfl)]
              rw [hold]
              rw [hstored]
              rfl
            · have hold := oldNet0_covers key p s h4 hstored hmem hn
              rw [hold]
              rfl

theorem regInv_empty : RegInv emptyState := by
  refine ⟨?_, ?_, ?_, ?_, ?_, ?_⟩
  · intro n net h
    exact Option.noConfusion h
  · intro n net h
    exact Option.noConfusion h
  · intro k n h
    exact Option.noConfusion h
  · intro n net k h
    exact Option.noConfusion h
  · intro ns k h
    exact Option.noConfusion h
  · exact List.nodup_nil

theorem regInv_syncNAD (key : Key) (d : Decl) (s : CState)
    (hinv : RegInv s) (hd : declValid d) : RegInv (syncNAD key d s).state := by
  cases d with
  | invalid => exact hinv
  | nil =>
    exact regInv_syncNADCore key none s hinv (fun q h => Option.noConfusion h)
  | parsed q =>
    refine regInv_syncNADCore key (some q) s hinv ?_
    intro q2 h
    injection h with h
    rw [← h]
    exact hd

theorem reachable_regInv {s : CState} (h : Reachable s) : RegInv s := by
  induction h with
  | empty => exact regInv_empty
  | step key d _ hv ih => exact regInv_syncNAD key d _ ih hv

/-! ### Claim C3: primary-NAD consistency invariant -/

theorem getActive_lookup_some (s : CState) (udns : List UDN) (ns : String) (k : Key)
    (hpm : lookupA s.primaryNADs ns = some k) :
    GetActiveNetworkForNamespace true s udns ns =
      (if (lookupA s.nads k).getD "" = "" then ActiveResult.panicInconsistency
       else
         match lookupA s.networks ((lookupA s.nads k).getD "") with
         | some network => ActiveResult.primaryNet { network with nads := [k] }
         | none => ActiveResult.panicNilNetwork) := by
  rw [GetActiveNetworkForNamespace, if_neg (by simp), hpm]

theorem getActive_lookup_none (s : CState) (udns : List UDN) (ns : String)
    (hpm : lookupA s.primaryNADs ns = none) :
    GetActiveNetworkForNamespace true s udns ns =
      (match udns.find? (fun u => u.primary) with
       | some udn => ActiveResult.unprocessedErr ns udn.name
       | none => ActiveResult.defaultNet) := by
  rw [GetActiveNetworkForNamespace, if_neg (by simp), hpm]

/-- C3: on every registry state reachable from the empty registry by
`syncNAD` calls, `primaryNADs` has at most one entry per namespace, every
recorded primary key is tracked in `nads` with a nonempty network name, and
consequently the fatal-inconsistency panic branch of
`GetActiveNetworkForNamespace` is unreachable. -/
theorem c3_primary_invariant (s : CState) (h : Reachable s) :
    (s.primaryNADs.map Prod.fst).Nodup ∧
    (∀ ns k, lookupA s.primaryNADs ns = some k →
      ∃ n, lookupA s.nads k = some n ∧ n ≠ "") ∧
    (∀ (segEnabled : Bool) (udns : List UDN) (ns : String),
      GetActiveNetworkForNamespace segEnabled s udns ns ≠
        ActiveResult.panicInconsistency) := by
  obtain ⟨h1, h2, h3, h4, h5, h6⟩ := reachable_regInv h
  have htracked : ∀ ns k, lookupA s.primaryNADs ns = some k →
      ∃ n, lookupA s.nads k = some n ∧ n ≠ "" := by
    intro ns k hk
    obtain ⟨-, n, hn⟩ := h5 ns k hk
    obtain ⟨net, hnet, -⟩ := h3 k n hn
    exact ⟨n, hn, (h1 n net hnet).2⟩
  refine ⟨h6, htracked, ?_⟩
  intro segEnabled udns ns
  cases segEnabled with
  | false => exact fun hcon => ActiveResult.noConfusion hcon
  | true =>
    cases hpm : lookupA s.primaryNADs ns with
    | none =>
      rw [getActive_lookup_none s udns ns hpm]
      cases hf : udns.find? (fun u => u.primary) with
      | none => exact fun hcon => ActiveResult.noConfusion hcon
      | some u => exact fun hcon => ActiveResult.noConfusion hcon
    | some k =>
      rw [getActive_lookup_some s udns ns k hpm]
      obtain ⟨n, hn, hne⟩ := htracked ns k hpm
      rw [hn]
      rw [if_neg (show ¬ ((some n).getD "" = "") from hne)]
      cases hnet : lookupA s.networks ((some n).getD "") with
      | none => exact fun hcon => ActiveResult.noConfusion hcon
      | some net => exact fun hcon => ActiveResult.noConfusion hcon

theorem c3_primary_invariant_witness :
    GetActiveNetworkForNamespace true
      ((syncNAD kA (Decl.parsed ⟨"P", confP⟩) emptyState).state) [] "ns1" ≠
      ActiveResult.panicInconsistency := by
  have h := c3_primary_invariant
    ((syncNAD kA (Decl.parsed ⟨"P", confP⟩) emptyState).state)
    (Reachable.step kA (Decl.parsed ⟨"P", confP⟩) Reachable.empty
      (show ("P" : String) ≠ "" by decide))
  exact h.2.2 true [] "ns1"

/-! ### Claim C4: active network per namespace -/

/-- C4: on reachable registry states (with network segmentation enabled),
`GetActiveNetworkForNamespace` returns the recorded primary network as a
copy restricted to the primary declaration key, with no error, whenever
`primaryNADs` has an entry for the namespace; with no recorded entry it
fails with the retryable unprocessed-primary-network error when the
secondary source lists a primary-network declaration, and returns the
default cluster-wide placeholder otherwise. -/
theorem c4_active_network (s : CState) (hr : Reachable s) (udns : List UDN) (ns : String) :
    (∀ k, lookupA s.primaryNADs ns = some k →
      ∃ n net, lookupA s.nads k = some n ∧ lookupA s.networks n = some net ∧
        GetActiveNetworkForNamespace true s udns ns =
          ActiveResult.primaryNet { net with nads := [k] }) ∧
    (lookupA s.primaryNADs ns = none → (∃ u ∈ udns, u.primary = true) →
      ∃ u, u ∈ udns ∧ u.primary = true ∧
        GetActiveNetworkForNamespace true s udns ns =
          ActiveResult.unprocessedErr ns u.name) ∧
    (lookupA s.primaryNADs ns = none → (∀ u ∈ udns, u.primary = false) →
      GetActiveNetworkForNamespace true s udns ns = ActiveResult.defaultNet) := by
  obtain ⟨h1, h2, h3, h4, h5, h6⟩ := reachable_regInv hr
  refine ⟨?_, ?_, ?_⟩
  · intro k hpm
    obtain ⟨-, n, hn⟩ := h5 ns k hpm
    obtain ⟨net, hnet, -⟩ := h3 k n hn
    have hne : n ≠ "" := (h1 n net hnet).2
    refine ⟨n, net, hn, hnet, ?_⟩
    rw [getActive_lookup_some s udns ns k hpm, hn]
    rw [if_neg (show ¬ ((some n).getD "" = "") from hne)]
    have hnet' : lookupA s.networks ((some n).getD "") = some net := hnet
    rw [hnet']
  · intro hpm hex
    have hfind : udns.find? (fun u => u.primary) ≠ none := by
      intro hnone
      rw [List.find?_eq_none] at hnone
      obtain ⟨u, hu, hup⟩ := hex
      exact hnone u hu (by simp [hup])
    cases hf : udns.find? (fun u => u.primary) with
    | none => exact absurd hf hfind
    | some u =>
      refine ⟨u, List.mem_of_find?_eq_some hf, by simpa using List.find?_some hf, ?_⟩
      rw [getActive_lookup_none s udns ns hpm, hf]
  · intro hpm hall
    have hf : udns.find? (fun u => u.primary) = none := by
      rw [List.find?_eq_none]
      intro u hu
      simp [hall u hu]
    rw [getActive_lookup_none s udns ns hpm, hf]

theorem c4_active_network_witness :
    GetActiveNetworkForNamespace true
      ((syncNAD kA (Decl.parsed ⟨"P", confP⟩) emptyState).state) [] "ns1" =
      ActiveResult.primaryNet ⟨"P", confP, [kA]⟩ := by
  have h := (c4_active_network
    ((syncNAD kA (Decl.parsed ⟨"P", confP⟩) emptyState).state)
    (Reachable.step kA (Decl.parsed ⟨"P", confP⟩) Reachable.empty
      (show ("P" : String) ≠ "" by decide)) [] "ns1").1 kA (by decide)
  obtain ⟨n, net, hn, hnet, he⟩ := h
  have hn2 : lookupA ((syncNAD kA (Decl.parsed ⟨"P", confP⟩) emptyState).state).nads kA =
      some "P" := by decide
  rw [hn2] at hn
  injection hn with hn
  subst hn
  have hnet2 : lookupA ((syncNAD kA (Decl.parsed ⟨"P", confP⟩) emptyState).state).networks
      "P" = some ⟨"P", confP, [kA]⟩ := by decide
  rw [hnet2] at hnet
  injection hnet with hnet
  subst hnet
  exact he

/-! ### Claim C5: idempotence of syncNAD -/

theorem netEquals_true_iff (cur : Network) (q : ParsedNAD) :
    netEquals cur (some q) = true ↔ cur.name = q.netName ∧ cur.conf = q.conf := by
  rw [netEquals]
  simp

theorem soleRef_false_exists {cur : Network} {key : Key} (h : soleRef cur key = false) :
    ∃ x ∈ cur.nads, x ≠ key := by
  rw [soleRef, List.all_eq_false] at h
  obtain ⟨x, hx, hne⟩ := h
  exact ⟨x, hx, by simpa using hne⟩

theorem removeNAD_eq_self_of_not_mem {l : List Key} {key : Key} (h : key ∉ l) :
    removeNAD l key = l := by
  rw [removeNAD]
  apply List.filter_eq_self.2
  intro x hx
  simp only [decide_eq_true_eq]
  intro hc
  subst hc
  exact absurd hx h

theorem not_mem_removeNAD (l : List Key) (key : Key) : key ∉ removeNAD l key := by
  intro h
  exact ((mem_removeNAD l key key).1 h).2 rfl

theorem removeNAD_nil_of_sole {cur : Network} {key : Key} (h : soleRef cur key = true) :
    removeNAD cur.nads key = [] := by
  cases hx : removeNAD cur.nads key with
  | nil => rfl
  | cons a t =>
    have ha : a ∈ removeNAD cur.nads key := by
      rw [hx]
      exact List.mem_cons_self a t
    obtain ⟨hmem, hne⟩ := (mem_removeNAD cur.nads key a).1 ha
    exact absurd (soleRef_forall h a hmem) hne

theorem addNAD_idem (l : List Key) (k : Key) : addNAD (addNAD l k) k = addNAD l k := by
  rw [addNAD, if_pos (self_mem_addNAD l k)]

theorem ensured_idem (en : Network) (key : Key) :
    ensured (ensured en key) key = ensured en key := by
  show ({ en with nads := addNAD (addNAD en.nads key) key } : Network) =
    { en with nads := addNAD en.nads key }
  rw [addNAD_idem]

theorem clearPrimary_idem (pm : List (String × Key)) (key : Key) :
    clearPrimaryIfKey (clearPrimaryIfKey pm key) key = clearPrimaryIfKey pm key := by
  by_cases hc : lookupA pm key.ns = some key
  · have h1 : clearPrimaryIfKey pm key = eraseA pm key.ns := by
      rw [clearPrimaryIfKey, if_pos hc]
    rw [h1, clearPrimaryIfKey]
    rw [if_neg (show ¬ lookupA (eraseA pm key.ns) key.ns = some key by
      rw [lookupA_eraseA_self]
      intro hcon
      cases hcon)]
  · have h1 : clearPrimaryIfKey pm key = pm := by
      rw [clearPrimaryIfKey, if_neg hc]
    rw [h1, clearPrimaryIfKey, if_neg hc]

theorem setPrimary_twice (pm : List (String × Key)) (key : Key) (en en2 : Network)
    (hconf : en2.conf.primary = en.conf.primary) :
    setPrimary (setPrimary pm key en) key en2 = setPrimary pm key en := by
  by_cases hp : en.conf.primary = true
  · rw [setPrimary, setPrimary, if_pos hp, if_pos (hconf.trans hp), insertA_insertA_self]
  · have hp2 : ¬ en2.conf.primary = true := by
      rw [hconf]
      exact hp
    rw [setPrimary, setPrimary, if_neg hp, if_neg hp2, clearPrimary_idem]

theorem guardFired_after_setPrimary (key : Key) (q : ParsedNAD) (s1 : CState)
    (pm : List (String × Key)) (en : Network)
    (hpm : s1.primaryNADs = setPrimary pm key en)
    (hconf : en.conf.primary = q.conf.primary) :
    guardFired key (some q) s1 = false := by
  unfold guardFired
  rw [hpm, setPrimary]
  by_cases hp : en.conf.primary = true
  · rw [if_pos hp, lookupA_insertA_self]
    simp
  · have hq : q.conf.primary = false := by
      rw [← hconf]
      simpa using hp
    rw [if_neg hp]
    cases hc : lookupA (clearPrimaryIfKey pm key) key.ns with
    | none => rfl
    | some pk => simp [hq]

theorem guardFired_after_clearPrimary (key : Key) (q : ParsedNAD) (s s1 : CState)
    (hpm : s1.primaryNADs = clearPrimaryIfKey s.primaryNADs key)
    (hg : guardFired key (some q) s = false) :
    guardFired key (some q) s1 = false := by
  unfold guardFired
  rw [hpm, clearPrimaryIfKey]
  by_cases hc : lookupA s.primaryNADs key.ns = some key
  · rw [if_pos hc, lookupA_eraseA_self]
  · rw [if_neg hc]
    unfold guardFired at hg
    exact hg

theorem lookupA_insertA_of_lookup {α β : Type} [DecidableEq α] {m : List (α × β)} {k : α}
    {v : β} (h : lookupA m k = some v) :
    ∀ x, lookupA (insertA m k v) x = lookupA m x := by
  intro x
  by_cases hx : x = k
  · subst hx
    rw [lookupA_insertA_self, h]
  · rw [lookupA_insertA_ne m k x v hx]

theorem guardFired_none_decl (key : Key) (s : CState) : guardFired key none s = false := rfl

theorem ensured_of_mem {en : Network} {k : Key} (h : k ∈ en.nads) : ensured en k = en := by
  show ({ en with nads := addNAD en.nads k } : Network) = en
  rw [addNAD, if_pos h]

theorem soleRef_eq_false {cur : Network} {key : Key} (x : Key) (hx : x ∈ cur.nads)
    (hne : x ≠ key) : soleRef cur key = false := by
  rw [soleRef, List.all_eq_false]
  exact ⟨x, hx, by simp [hne]⟩

theorem syncNADCore_nil_clean (key : Key) (s1 : CState)
    (hprev : lookupA s1.nads key = none)
    (hempty : lookupA s1.networks "" = none)
    (hpm : ¬ lookupA s1.primaryNADs key.ns = some key) :
    syncNADCore key none s1 = ⟨s1, [], none⟩ := by
  rw [syncNADCore, if_neg (by simp [guardFired_none_decl])]
  have hcur : lookupA s1.networks (nameOf none) = none := hempty
  rw [decideBranch_eq_none_case key none s1 hcur]
  have hold : oldNet0 key none s1 = none := by
    rw [oldNet0, prevNameOf, hprev]
    rw [if_neg (by simp [nameOf])]
  rw [hold]
  show (⟨⟨eraseA s1.nads key, clearPrimaryIfKey s1.primaryNADs key, s1.networks⟩,
      [], none⟩ : SyncResult) = ⟨s1, [], none⟩
  rw [eraseA_eq_self_of_lookupA_none s1.nads key hprev]
  rw [clearPrimaryIfKey, if_neg hpm]

theorem syncNADCore_restabilize (key : Key) (q : ParsedNAD) (s1 : CState) (en2 : Network)
    (hguard : guardFired key (some q) s1 = false)
    (hprev : lookupA s1.nads key = some q.netName)
    (hcur : lookupA s1.networks q.netName = some en2)
    (heq : netEquals en2 (some q) = true)
    (hens : ensured en2 key = en2) :
    syncNADCore key (some q) s1 =
      ⟨⟨insertA s1.nads key en2.name, setPrimary s1.primaryNADs key en2,
          insertA s1.networks en2.name en2⟩,
        [Event.ensure en2], none⟩ := by
  rw [syncNADCore, if_neg (by simp [hguard])]
  have hcur' : lookupA s1.networks (nameOf (some q)) = some en2 := hcur
  rw [decideBranch_eq_some_case key (some q) s1 en2 hcur', if_pos heq]
  have hold : oldNet0 key (some q) s1 = none := by
    rw [oldNet0, prevNameOf, hprev]
    rw [if_neg (by simp [nameOf])]
  rw [hold]
  show (⟨⟨insertA s1.nads key (ensured en2 key).name, setPrimary s1.primaryNADs key en2,
      insertA s1.networks (ensured en2 key).name (ensured en2 key)⟩,
    [Event.ensure (ensured en2 key)], none⟩ : SyncResult) = _
  rw [hens]

theorem syncNADCore_reconflict (key : Key) (q : ParsedNAD) (s1 : CState) (c2 : Network)
    (hguard : guardFired key (some q) s1 = false)
    (hprev : lookupA s1.nads key = none)
    (hX : q.netName ≠ "")
    (hcur : lookupA s1.networks q.netName = some c2)
    (hempty : lookupA s1.networks "" = none)
    (heq : netEquals c2 (some q) = false)
    (hsole : soleRef c2 key = false)
    (hnkey : key ∉ c2.nads)
    (hnnil : c2.nads ≠ []) :
    syncNADCore key (some q) s1 =
      ⟨⟨eraseA s1.nads key, clearPrimaryIfKey s1.primaryNADs key,
          insertA s1.networks c2.name c2⟩,
        [Event.ensure c2], some SyncErr.configConflict⟩ := by
  rw [syncNADCore, if_neg (by simp [hguard])]
  have hcur' : lookupA s1.networks (nameOf (some q)) = some c2 := hcur
  rw [decideBranch_eq_some_case key (some q) s1 c2 hcur']
  rw [if_neg (by simp [heq]), if_neg (by simp [hsole])]
  have hold : oldNet0 key (some q) s1 = none := by
    rw [oldNet0, prevNameOf, hprev]
    rw [if_pos (show nameOf (some q) ≠ (none : Option String).getD "" from hX)]
    exact hempty
  rw [hold]
  have hrm : removeNAD c2.nads key = c2.nads := removeNAD_eq_self_of_not_mem hnkey
  have hdet : detach key (some c2) s1.networks =
      ([Event.ensure c2], insertA s1.networks c2.name c2) := by
    rw [detach]
    rw [if_neg (show ¬ removeNAD c2.nads key = [] by rw [hrm]; exact hnnil)]
    rw [hrm]
  show (⟨⟨eraseA s1.nads key, clearPrimaryIfKey s1.primaryNADs key,
      (detach key (some c2) s1.networks).2⟩,
    (detach key (some c2) s1.networks).1, some SyncErr.configConflict⟩ : SyncResult) = _
  rw [hdet]

theorem c5_ensure_case (key : Key) (q : ParsedNAD) (s : CState) (en : Network)
    (nm1 : List (String × Network)) (ev1 : List Event)
    (hname : en.name = q.netName) (hconf : en.conf = q.conf)
    (hr1 : syncNADCore key (some q) s =
      ⟨⟨insertA s.nads key (ensured en key).name, setPrimary s.primaryNADs key en,
          insertA nm1 (ensured en key).name (ensured en key)⟩,
        ev1 ++ [Event.ensure (ensured en key)], none⟩) :
    (syncNADCore key (some q) (syncNADCore key (some q) s).state).state.nads =
      (syncNADCore key (some q) s).state.nads ∧
    (syncNADCore key (some q) (syncNADCore key (some q) s).state).state.primaryNADs =
      (syncNADCore key (some q) s).state.primaryNADs ∧
    (∀ n, lookupA
        (syncNADCore key (some q) (syncNADCore key (some q) s).state).state.networks n =
      lookupA (syncNADCore key (some q) s).state.networks n) ∧
    (∀ e ∈ (syncNADCore key (some q) (syncNADCore key (some q) s).state).events,
      ∃ net, e = Event.ensure net ∧
        lookupA (syncNADCore key (some q) s).state.networks net.name = some net) := by
  have hs1 : (syncNADCore key (some q) s).state =
      ⟨insertA s.nads key (ensured en key).name, setPrimary s.primaryNADs key en,
        insertA nm1 (ensured en key).name (ensured en key)⟩ := by
    rw [hr1]
  have henname : (ensured en key).name = q.netName := hname
  have hguard2 : guardFired key (some q)
      (⟨insertA s.nads key (ensured en key).name, setPrimary s.primaryNADs key en,
        insertA nm1 (ensured en key).name (ensured en key)⟩ : CState) = false := by
    refine guardFired_after_setPrimary key q _ s.primaryNADs en rfl ?_
    rw [hconf]
  have hprev2 : lookupA (insertA s.nads key (ensured en key).name) key = some q.netName := by
    rw [lookupA_insertA_self, henname]
  have hcur2 : lookupA (insertA nm1 (ensured en key).name (ensured en key)) q.netName =
      some (ensured en key) := by
    rw [← henname]
    exact lookupA_insertA_self _ _ _
  have heq2 : netEquals (ensured en key) (some q) = true := by
    rw [netEquals_true_iff]
    exact ⟨hname, hconf⟩
  have hr2 := syncNADCore_restabilize key q
    (⟨insertA s.nads key (ensured en key).name, setPrimary s.primaryNADs key en,
      insertA nm1 (ensured en key).name (ensured en key)⟩ : CState)
    (ensured en key) hguard2 hprev2 hcur2 heq2 (ensured_idem en key)
  rw [hs1, hr2]
  refine ⟨?_, ?_, ?_, ?_⟩
  · show insertA (insertA s.nads key (ensured en key).name) key (ensured en key).name =
      insertA s.nads key (ensured en key).name
    exact insertA_insertA_self _ _ _ _
  · show setPrimary (setPrimary s.primaryNADs key en) key (ensured en key) =
      setPrimary s.primaryNADs key en
    exact setPrimary_twice _ _ _ _ rfl
  · intro n
    show lookupA (insertA (insertA nm1 (ensured en key).name (ensured en key))
        (ensured en key).name (ensured en key)) n =
      lookupA (insertA nm1 (ensured en key).name (ensured en key)) n
    rw [insertA_insertA_self]
  · intro e he
    have he2 : e = Event.ensure (ensured en key) := by
      simpa using he
    refine ⟨ensured en key, he2, ?_⟩
    show lookupA (insertA nm1 (ensured en key).name (ensured en key))
      (ensured en key).name = some (ensured en key)
    exact lookupA_insertA_self _ _ _

theorem c5_conflict_case (key : Key) (q : ParsedNAD) (s : CState) (c2 : Network)
    (nm1 : List (String × Network)) (ev1 : List Event)
    (hr1 : syncNADCore key (some q) s =
      ⟨⟨eraseA s.nads key, clearPrimaryIfKey s.primaryNADs key, nm1⟩, ev1,
        some SyncErr.configConflict⟩)
    (hguard1 : guardFired key (some q) s = false)
    (hXne : q.netName ≠ "")
    (hcur2 : lookupA nm1 q.netName = some c2)
    (hname : c2.name = q.netName)
    (hconfne : c2.conf ≠ q.conf)
    (hsole2 : soleRef c2 key = false)
    (hnkey : key ∉ c2.nads)
    (hnnil : c2.nads ≠ [])
    (hempty1 : lookupA nm1 "" = none) :
    (syncNADCore key (some q) (syncNADCore key (some q) s).state).state.nads =
      (syncNADCore key (some q) s).state.nads ∧
    (syncNADCore key (some q) (syncNADCore key (some q) s).state).state.primaryNADs =
      (syncNADCore key (some q) s).state.primaryNADs ∧
    (∀ n, lookupA
        (syncNADCore key (some q) (syncNADCore key (some q) s).state).state.networks n =
      lookupA (syncNADCore key (some q) s).state.networks n) ∧
    (∀ e ∈ (syncNADCore key (some q) (syncNADCore key (some q) s).state).events,
      ∃ net, e = Event.ensure net ∧
        lookupA (syncNADCore key (some q) s).state.networks net.name = some net) := by
  have hs1 : (syncNADCore key (some q) s).state =
      ⟨eraseA s.nads key, clearPrimaryIfKey s.primaryNADs key, nm1⟩ := by
    rw [hr1]
  have hguard2 : guardFired key (some q)
      (⟨eraseA s.nads key, clearPrimaryIfKey s.primaryNADs key, nm1⟩ : CState) = false :=
    guardFired_after_clearPrimary key q s _ rfl hguard1
  have heq2 : netEquals c2 (some q) = false := by
    rw [netEquals]
    simp [hconfne]
  have hr2 := syncNADCore_reconflict key q
    (⟨eraseA s.nads key, clearPrimaryIfKey s.primaryNADs key, nm1⟩ : CState) c2
    hguard2 (lookupA_eraseA_self s.nads key) hXne hcur2 hempty1 heq2 hsole2 hnkey hnnil
  have hlk : lookupA nm1 c2.name = some c2 := by
    rw [hname]
    exact hcur2
  rw [hs1, hr2]
  refine ⟨?_, ?_, ?_, ?_⟩
  · show eraseA (eraseA s.nads key) key = eraseA s.nads key
    exact eraseA_eraseA _ _
  · show clearPrimaryIfKey (clearPrimaryIfKey s.primaryNADs key) key =
      clearPrimaryIfKey s.primaryNADs key
    exact clearPrimary_idem _ _
  · intro n
    show lookupA (insertA nm1 c2.name c2) n = lookupA nm1 n
    exact lookupA_insertA_of_lookup hlk n
  · intro e he
    have he2 : e = Event.ensure c2 := by
      simpa using he
    exact ⟨c2, he2, hlk⟩

theorem c5_core (key : Key) (p : Option ParsedNAD) (s : CState) (hinv : RegInv s)
    (hval : ∀ q, p = some q → q.netName ≠ "") :
    (syncNADCore key p (syncNADCore key p s).state).state.nads =
      (syncNADCore key p s).state.nads ∧
    (syncNADCore key p (syncNADCore key p s).state).state.primaryNADs =
      (syncNADCore key p s).state.primaryNADs ∧
    (∀ n, lookupA (syncNADCore key p (syncNADCore key p s).state).state.networks n =
      lookupA (syncNADCore key p s).state.networks n) ∧
    (∀ e ∈ (syncNADCore key p (syncNADCore key p s).state).events,
      ∃ net, e = Event.ensure net ∧
        lookupA (syncNADCore key p s).state.networks net.name = some net) := by
  obtain ⟨h1, h2, h3, h4, h5, h6⟩ := hinv
  have h5a : ∀ ns k, lookupA s.primaryNADs ns = some k → k.ns = ns :=
    fun ns k h => (h5 ns k h).1
  have hempty0 : lookupA s.networks "" = none := networks_empty_name s h1
  by_cases hg : guardFired key p s = true
  · have hr1 : syncNADCore key p s = ⟨s, [], some SyncErr.primaryConflict⟩ := by
      rw [syncNADCore, if_pos hg]
    have hr2 : syncNADCore key p (syncNADCore key p s).state =
        ⟨s, [], some SyncErr.primaryConflict⟩ := by
      rw [hr1]
      exact hr1
    rw [hr2, hr1]
    exact ⟨rfl, rfl, fun n => rfl, fun e he => absurd he (List.not_mem_nil e)⟩
  · cases hpc : p with
    | none =>
      subst hpc
      cases hkprev : lookupA s.nads key with
      | none =>
        have hpm0 : ¬ lookupA s.primaryNADs key.ns = some key := by
          intro hc
          obtain ⟨-, n, hn⟩ := h5 key.ns key hc
          rw [hkprev] at hn
          cases hn
        have hr1 := syncNADCore_nil_clean key s hkprev hempty0 hpm0
        have hr2 : syncNADCore key none (syncNADCore key none s).state =
            ⟨s, [], none⟩ := by
          rw [hr1]
          exact hr1
        rw [hr2, hr1]
        exact ⟨rfl, rfl, fun n => rfl, fun e he => absurd he (List.not_mem_nil e)⟩
      | some Y =>
        obtain ⟨netY, hnetY, hkeyY⟩ := h3 key Y hkprev
        have hYname : netY.name = Y := (h1 Y netY hnetY).1
        have hYne : Y ≠ "" := (h1 Y netY hnetY).2
        have hold1 : oldNet0 key none s = some netY := by
          rw [oldNet0, prevNameOf, hkprev]
          rw [if_pos (show nameOf none ≠ (some Y).getD "" from fun h => hYne h.symm)]
          exact hnetY
        have hr1 : syncNADCore key none s =
            ⟨⟨eraseA s.nads key, clearPrimaryIfKey s.primaryNADs key,
                (detach key (some netY) s.networks).2⟩,
              (detach key (some netY) s.networks).1, none⟩ := by
          rw [syncNADCore, if_neg (by simp [guardFired_none_decl])]
          rw [decideBranch_eq_none_case key none s hempty0, hold1]
          rfl
        have hpm2 : ¬ lookupA (clearPrimaryIfKey s.primaryNADs key) key.ns = some key := by
          intro hc
          exact (clearPrimary_lookup s.primaryNADs key h5a key.ns key hc).2 rfl
        have hprev2 : lookupA (eraseA s.nads key) key = none := lookupA_eraseA_self _ _
        have hYnot : ("" : String) ≠ netY.name := by
          rw [hYname]
          exact fun h => hYne h.symm
        by_cases hdel : removeNAD netY.nads key = []
        · have hdet := detach_some_del key netY s.networks hdel
          have hs1 : (syncNADCore key none s).state =
              ⟨eraseA s.nads key, clearPrimaryIfKey s.primaryNADs key,
                eraseA s.networks netY.name⟩ := by
            rw [hr1, hdet]
          have hempty2 : lookupA (eraseA s.networks netY.name) "" = none := by
            rw [lookupA_eraseA_ne s.networks netY.name "" hYnot]
            exact hempty0
          have hr2 := syncNADCore_nil_clean key
            (⟨eraseA s.nads key, clearPrimaryIfKey s.primaryNADs key,
              eraseA s.networks netY.name⟩ : CState) hprev2 hempty2 hpm2
          rw [hs1, hr2]
          exact ⟨rfl, rfl, fun n => rfl, fun e he => absurd he (List.not_mem_nil e)⟩
        · have hdet := detach_some_keep key netY s.networks hdel
          have hs1 : (syncNADCore key none s).state =
              ⟨eraseA s.nads key, clearPrimaryIfKey s.primaryNADs key,
                insertA s.networks netY.name
                  { netY with nads := removeNAD netY.nads key }⟩ := by
            rw [hr1, hdet]
          have hempty2 : lookupA (insertA s.networks netY.name
              { netY with nads := removeNAD netY.nads key }) "" = none := by
            rw [lookupA_insertA_ne s.networks netY.name "" _ hYnot]
            exact hempty0
          have hr2 := syncNADCore_nil_clean key
            (⟨eraseA s.nads key, clearPrimaryIfKey s.primaryNADs key,
              insertA s.networks netY.name
                { netY with nads := removeNAD netY.nads key }⟩ : CState)
            hprev2 hempty2 hpm2
          rw [hs1, hr2]
          exact ⟨rfl, rfl, fun n => rfl, fun e he => absurd he (List.not_mem_nil e)⟩
    | some q =>
      subst hpc
      have hXne : q.netName ≠ "" := hval q rfl
      have hgf : guardFired key (some q) s = false := by
        cases hb : guardFired key (some q) s with
        | false => rfl
        | true => exact absurd hb hg
      cases hcur : lookupA s.networks q.netName with
      | none =>
        have hr1 : syncNADCore key (some q) s =
            ⟨⟨insertA s.nads key (ensured (freshNet q) key).name,
                setPrimary s.primaryNADs key (freshNet q),
                insertA (detach key (oldNet0 key (some q) s) s.networks).2
                  (ensured (freshNet q) key).name (ensured (freshNet q) key)⟩,
              (detach key (oldNet0 key (some q) s) s.networks).1 ++
                [Event.ensure (ensured (freshNet q) key)], none⟩ := by
          rw [syncNADCore, if_neg hg]
          have hcur' : lookupA s.networks (nameOf (some q)) = none := hcur
          rw [decideBranch_eq_none_case key (some q) s hcur']
          rfl
        exact c5_ensure_case key q s (freshNet q) _ _ rfl rfl hr1
      | some c =>
        have hcname : c.name = q.netName := (h1 q.netName c hcur).1
        have hcur' : lookupA s.networks (nameOf (some q)) = some c := hcur
        by_cases heq : netEquals c (some q) = true
        · have hr1 : syncNADCore key (some q) s =
              ⟨⟨insertA s.nads key (ensured c key).name,
                  setPrimary s.primaryNADs key c,
                  insertA (detach key (oldNet0 key (some q) s) s.networks).2
                    (ensured c key).name (ensured c key)⟩,
                (detach key (oldNet0 key (some q) s) s.networks).1 ++
                  [Event.ensure (ensured c key)], none⟩ := by
            rw [syncNADCore, if_neg hg]
            rw [decideBranch_eq_some_case key (some q) s c hcur', if_pos heq]
            rfl
          obtain ⟨hn2, hc2⟩ := (netEquals_true_iff c q).1 heq
          exact c5_ensure_case key q s c _ _ hn2 hc2 hr1
        · by_cases hsole : soleRef c key = true
          · have hdel := removeNAD_nil_of_sole hsole
            have hdet := detach_some_del key c s.networks hdel
            have hr1 : syncNADCore key (some q) s =
                ⟨⟨insertA s.nads key (ensured (freshNet q) key).name,
                    setPrimary s.primaryNADs key (freshNet q),
                    insertA (eraseA s.networks c.name)
                      (ensured (freshNet q) key).name (ensured (freshNet q) key)⟩,
                  [Event.deleteNet c.name] ++
                    [Event.ensure (ensured (freshNet q) key)], none⟩ := by
              rw [syncNADCore, if_neg hg]
              rw [decideBranch_eq_some_case key (some q) s c hcur']
              rw [if_neg heq, if_pos hsole]
              show (⟨⟨insertA s.nads key (ensured (freshNet q) key).name,
                  setPrimary s.primaryNADs key (freshNet q),
                  insertA (detach key (some c) s.networks).2
                    (ensured (freshNet q) key).name (ensured (freshNet q) key)⟩,
                (detach key (some c) s.networks).1 ++
                  [Event.ensure (ensured (freshNet q) key)], none⟩ : SyncResult) = _
              rw [hdet]
            exact c5_ensure_case key q s (freshNet q) _ _ rfl rfl hr1
          · have hsole' : soleRef c key = false := by
              cases hb : soleRef c key with
              | false => rfl
              | true => exact absurd hb hsole
            obtain ⟨x, hx, hxne⟩ := soleRef_false_exists hsole'
            have hcnnil : c.nads ≠ [] := by
              intro hnil
              rw [hnil] at hx
              cases hx
            have hconfne : c.conf ≠ q.conf := by
              intro hcc
              exact heq ((netEquals_true_iff c q).2 ⟨hcname, hcc⟩)
            cases hkprev : lookupA s.nads key with
            | none =>
              have hknotc : key ∉ c.nads := by
                intro hmem
                have h' := h4 q.netName c key hcur hmem
                rw [hkprev] at h'
                cases h'
              have hold : oldNet0 key (some q) s = none := by
                rw [oldNet0, prevNameOf, hkprev]
                rw [if_pos (show nameOf (some q) ≠ (none : Option String).getD ""
                  from hXne)]
                exact hempty0
              have hrm : removeNAD c.nads key = c.nads :=
                removeNAD_eq_self_of_not_mem hknotc
              have hdet : detach key (some c) s.networks =
                  ([Event.ensure c], insertA s.networks c.name c) := by
                rw [detach]
                rw [if_neg (show ¬ removeNAD c.nads key = [] by rw [hrm]; exact hcnnil)]
                rw [hrm]
              have hr1 : syncNADCore key (some q) s =
                  ⟨⟨eraseA s.nads key, clearPrimaryIfKey s.primaryNADs key,
                      insertA s.networks c.name c⟩,
                    [Event.ensure c], some SyncErr.configConflict⟩ := by
                rw [syncNADCore, if_neg hg]
                rw [decideBranch_eq_some_case key (some q) s c hcur']
                rw [if_neg heq, if_neg hsole]
                rw [hold]
                show (⟨⟨eraseA s.nads key, clearPrimaryIfKey s.primaryNADs key,
                    (detach key (some c) s.networks).2⟩,
                  (detach key (some c) s.networks).1,
                  some SyncErr.configConflict⟩ : SyncResult) = _
                rw [hdet]
              refine c5_conflict_case key q s c _ _ hr1 hgf hXne ?_ hcname hconfne
                hsole' hknotc hcnnil ?_
              · rw [← hcname]
                exact lookupA_insertA_self _ _ _
              · rw [lookupA_insertA_ne s.networks c.name "" _
                  (by rw [hcname]; exact fun h => hXne h.symm)]
                exact hempty0
            | some Y =>
              by_cases hYX : Y = q.netName
              · subst hYX
                obtain ⟨netc, hnetc, hkeyc⟩ := h3 key q.netName hkprev
                rw [hcur] at hnetc
                injection hnetc with hnetc
                subst hnetc
                have hold : oldNet0 key (some q) s = none := by
                  rw [oldNet0, prevNameOf, hkprev]
                  rw [if_neg (by simp [nameOf])]
                have hrmne : ¬ removeNAD c.nads key = [] := by
                  intro hnil
                  have hmem : x ∈ removeNAD c.nads key :=
                    (mem_removeNAD c.nads key x).2 ⟨hx, hxne⟩
                  rw [hnil] at hmem
                  cases hmem
                have hdet := detach_some_keep key c s.networks hrmne
                have hr1 : syncNADCore key (some q) s =
                    ⟨⟨eraseA s.nads key, clearPrimaryIfKey s.primaryNADs key,
                        insertA s.networks c.name
                          { c with nads := removeNAD c.nads key }⟩,
                      [Event.ensure { c with nads := removeNAD c.nads key }],
                      some SyncErr.configConflict⟩ := by
                  rw [syncNADCore, if_neg hg]
                  rw [decideBranch_eq_some_case key (some q) s c hcur']
                  rw [if_neg heq, if_neg hsole]
                  rw [hold]
                  show (⟨⟨eraseA s.nads key, clearPrimaryIfKey s.primaryNADs key,
                      (detach key (some c) s.networks).2⟩,
                    (detach key (some c) s.networks).1,
                    some SyncErr.configConflict⟩ : SyncResult) = _
                  rw [hdet]
                refine c5_conflict_case key q s
                  { c with nads := removeNAD c.nads key } _ _ hr1 hgf hXne ?_ hcname
                  hconfne ?_ (not_mem_removeNAD c.nads key) hrmne ?_
                · rw [← hcname]
                  exact lookupA_insertA_self _ _ _
                · exact soleRef_eq_false x
                    ((mem_removeNAD c.nads key x).2 ⟨hx, hxne⟩) hxne
                · rw [lookupA_insertA_ne s.networks c.name "" _
                    (by rw [hcname]; exact fun h => hXne h.symm)]
                  exact hempty0
              · obtain ⟨netY, hnetY, hkeyY⟩ := h3 key Y hkprev
                have hYname : netY.name = Y := (h1 Y netY hnetY).1
                have hYne2 : Y ≠ "" := (h1 Y netY hnetY).2
                have hold : oldNet0 key (some q) s = some netY := by
                  rw [oldNet0, prevNameOf, hkprev]
                  rw [if_pos (show nameOf (some q) ≠ (some Y).getD ""
                    from fun h => hYX h.symm)]
                  exact hnetY
                have hknotc : key ∉ c.nads := by
                  intro hmem
                  have h' := h4 q.netName c key hcur hmem
                  rw [hkprev] at h'
                  injection h' with h'
                  exact hYX h'
                have hqY : q.netName ≠ netY.name := by
                  rw [hYname]
                  exact fun h => hYX h.symm
                have heY : ("" : String) ≠ netY.name := by
                  rw [hYname]
                  exact fun h => hYne2 h.symm
                by_cases hdelY : removeNAD netY.nads key = []
                · have hdet := detach_some_del key netY s.networks hdelY
                  have hr1 : syncNADCore key (some q) s =
                      ⟨⟨eraseA s.nads key, clearPrimaryIfKey s.primaryNADs key,
                          eraseA s.networks netY.name⟩,
                        [Event.deleteNet netY.name],
                        some SyncErr.configConflict⟩ := by
                    rw [syncNADCore, if_neg hg]
                    rw [decideBranch_eq_some_case key (some q) s c hcur']
                    rw [if_neg heq, if_neg hsole]
                    rw [hold]
                    show (⟨⟨eraseA s.nads key, clearPrimaryIfKey s.primaryNADs key,
                        (detach key (some netY) s.networks).2⟩,
                      (detach key (some netY) s.networks).1,
                      some SyncErr.configConflict⟩ : SyncResult) = _
                    rw [hdet]
                  refine c5_conflict_case key q s c _ _ hr1 hgf hXne ?_ hcname
                    hconfne hsole' hknotc hcnnil ?_
                  · rw [lookupA_eraseA_ne s.networks netY.name q.netName hqY]
                    exact hcur
                  · rw [lookupA_eraseA_ne s.networks netY.name "" heY]
                    exact hempty0
                · have hdet := detach_some_keep key netY s.networks hdelY
                  have hr1 : syncNADCore key (some q) s =
                      ⟨⟨eraseA s.nads key, clearPrimaryIfKey s.primaryNADs key,
                          insertA s.networks netY.name
                            { netY with nads := removeNAD netY.nads key }⟩,
                        [Event.ensure { netY with nads := removeNAD netY.nads key }],
                        some SyncErr.configConflict⟩ := by
                    rw [syncNADCore, if_neg hg]
                    rw [decideBranch_eq_some_case key (some q) s c hcur']
                    rw [if_neg heq, if_neg hsole]
                    rw [hold]
                    show (⟨⟨eraseA s.nads key, clearPrimaryIfKey s.primaryNADs key,
                        (detach key (some netY) s.networks).2⟩,
                      (detach key (some netY) s.networks).1,
                      some SyncErr.configConflict⟩ : SyncResult) = _
                    rw [hdet]
                  refine c5_conflict_case key q s c _ _ hr1 hgf hXne ?_ hcname
                    hconfne hsole' hknotc hcnnil ?_
                  · rw [lookupA_insertA_ne s.networks netY.name q.netName _ hqY]
                    exact hcur
                  · rw [lookupA_insertA_ne s.networks netY.name "" _ heY]
                    exact hempty0

/-- C5, corrected: on registry states satisfying the consistency invariant,
calling `syncNAD` twice with the same key and declaration leaves `nads`,
`primaryNADs` and the network registry (up to lookup) identical to calling it
once; the second call deletes no network, and every network-manager call it
makes is an ensure of a network already registered with unchanged content.
(The second call's ensure may target the conflicting or old network rather
than the sync's target network, so "the only repeated effect is re-ensuring
the same target network" does not hold as stated.) -/
theorem c5_amended (s : CState) (key : Key) (d : Decl) (hinv : RegInv s)
    (hd : declValid d) :
    (syncNAD key d (syncNAD key d s).state).state.nads = (syncNAD key d s).state.nads ∧
    (syncNAD key d (syncNAD key d s).state).state.primaryNADs =
      (syncNAD key d s).state.primaryNADs ∧
    (∀ n, lookupA (syncNAD key d (syncNAD key d s).state).state.networks n =
      lookupA (syncNAD key d s).state.networks n) ∧
    (∀ e ∈ (syncNAD key d (syncNAD key d s).state).events,
      ∃ net, e = Event.ensure net ∧
        lookupA (syncNAD key d s).state.networks net.name = some net) := by
  cases d with
  | invalid =>
    exact ⟨rfl, rfl, fun n => rfl, fun e he => absurd he (List.not_mem_nil e)⟩
  | nil =>
    exact c5_core key none s hinv (fun q h => Option.noConfusion h)
  | parsed q =>
    refine c5_core key (some q) s hinv ?_
    intro q2 h
    injection h with h
    rw [← h]
    exact hd

/-- C5, counterexample to the claim as stated: after binding `ns1/a` to
network `X` and `ns1/b` to network `Y`, syncing `ns1/b` with an incompatible
parse of `X` twice shows the claimed event discipline fails: the first call
only deletes `Y` (never ensuring `X`), while the second call issues an
ensure of `X` — a network different from anything the first call ensured and
different from the (nil) target of the failed sync. -/
theorem c5_counterexample :
    (syncNAD kB (Decl.parsed ⟨"X", conf2⟩)
      ((syncNAD kB (Decl.parsed ⟨"Y", confY⟩)
        ((syncNAD kA (Decl.parsed ⟨"X", conf1⟩) emptyState).state)).state)).events
      = [Event.deleteNet "Y"] ∧
    (syncNAD kB (Decl.parsed ⟨"X", conf2⟩)
      ((syncNAD kB (Decl.parsed ⟨"X", conf2⟩)
        ((syncNAD kB (Decl.parsed ⟨"Y", confY⟩)
          ((syncNAD kA (Decl.parsed ⟨"X", conf1⟩) emptyState).state)).state)).state)).events
      = [Event.ensure ⟨"X", conf1, [kA]⟩] ∧
    Event.ensure (⟨"X", conf1, [kA]⟩ : Network) ∉
      (syncNAD kB (Decl.parsed ⟨"X", conf2⟩)
        ((syncNAD kB (Decl.parsed ⟨"Y", confY⟩)
          ((syncNAD kA (Decl.parsed ⟨"X", conf1⟩) emptyState).state)).state)).events := by
  refine ⟨by decide, by decide, by decide⟩

theorem c5_amended_witness :
    (syncNAD kB (Decl.parsed ⟨"X", conf1⟩)
        (syncNAD kB (Decl.parsed ⟨"X", conf1⟩) emptyState).state).state.nads =
      (syncNAD kB (Decl.parsed ⟨"X", conf1⟩) emptyState).state.nads ∧
    lookupA (syncNAD kB (Decl.parsed ⟨"X", conf1⟩)
        (syncNAD kB (Decl.parsed ⟨"X", conf1⟩) emptyState).state).state.networks "X" =
      lookupA (syncNAD kB (Decl.parsed ⟨"X", conf1⟩) emptyState).state.networks "X" := by
  have h := c5_amended emptyState kB (Decl.parsed ⟨"X", conf1⟩) regInv_empty
    (show ("X" : String) ≠ "" by decide)
  exact ⟨h.1, h.2.2.1 "X"⟩

/-! ### Load-balancer reconciliation lemmas -/

theorem collectStep_fst (acc : List String × List (String × ExistingLB)) (lb : ExistingLB) :
    (collectStep acc lb).1 = insertS acc.1 lb.uuid := by
  rw [collectStep]
  cases lookupA acc.2 lb.name with
  | none => rfl
  | some ex => rfl

theorem collect_toDelete_mem (es : List ExistingLB)
    (acc : List String × List (String × ExistingLB)) (u : String) :
    u ∈ (es.foldl collectStep acc).1 ↔ u ∈ acc.1 ∨ ∃ r ∈ es, r.uuid = u := by
  induction es generalizing acc with
  | nil => simp
  | cons r t ih =>
    rw [List.foldl_cons, ih]
    rw [collectStep_fst, mem_insertS]
    constructor
    · rintro (⟨hu | hu⟩ | ⟨r2, hr2, hu⟩)
      · exact Or.inl hu
      · exact Or.inr ⟨r, List.mem_cons_self r t, hu.symm⟩
      · exact Or.inr ⟨r2, List.mem_cons_of_mem r hr2, hu⟩
    · rintro (hu | ⟨r2, hr2, hu⟩)
      · exact Or.inl (Or.inl hu)
      · rcases List.mem_cons.1 hr2 with rfl | hr2
        · exact Or.inl (Or.inr hu.symm)
        · exact Or.inr ⟨r2, hr2, hu⟩

theorem collect_byName (es : List ExistingLB)
    (acc : List String × List (String × ExistingLB)) (N : String) :
    lookupA (es.foldl collectStep acc).2 N =
      (es.filter (fun r => decide (r.name = N))).foldl collideFlip (lookupA acc.2 N) := by
  induction es generalizing acc with
  | nil => rfl
  | cons r t ih =>
    rw [List.foldl_cons, ih, List.filter_cons]
    by_cases hn : r.name = N
    · rw [if_pos (by simp [hn]), List.foldl_cons]
      have hstep : lookupA (collectStep acc r).2 N =
          collideFlip (lookupA acc.2 N) r := by
        rw [collectStep]
        cases hl : lookupA acc.2 r.name with
        | none =>
          show lookupA (insertA acc.2 r.name r) N = _
          rw [← hn]
          rw [lookupA_insertA_self, hl]
          rfl
        | some ex =>
          show lookupA (eraseA acc.2 r.name) N = _
          rw [← hn]
          rw [lookupA_eraseA_self, hl]
          rfl
      rw [hstep]
    · rw [if_neg (by simp [hn])]
      have hstep : lookupA (collectStep acc r).2 N = lookupA acc.2 N := by
        rw [collectStep]
        cases hl : lookupA acc.2 r.name with
        | none =>
          show lookupA (insertA acc.2 r.name r) N = _
          rw [lookupA_insertA_ne acc.2 r.name N r (fun h => hn h.symm)]
        | some ex =>
          show lookupA (eraseA acc.2 r.name) N = _
          rw [lookupA_eraseA_ne acc.2 r.name N (fun h => hn h.symm)]
      rw [hstep]

theorem collideFlip_chain_some {l : List ExistingLB} {st : Option ExistingLB}
    {ex : ExistingLB} (h : l.foldl collideFlip st = some ex) :
    ex ∈ l ∨ st = some ex := by
  induction l generalizing st with
  | nil => exact Or.inr h
  | cons r t ih =>
    rw [List.foldl_cons] at h
    rcases ih h with hmem | hst
    · exact Or.inl (List.mem_cons_of_mem r hmem)
    · cases hl : st with
      | none =>
        rw [hl] at hst
        have hst2 : some r = some ex := hst
        injection hst2 with hst2
        subst hst2
        exact Or.inl (List.mem_cons_self r t)
      | some ex2 =>
        rw [hl] at hst
        exact Option.noConfusion hst

theorem collect_byName_mem (es : List ExistingLB) (N : String) (ex : ExistingLB)
    (h : lookupA (collectExisting es).2 N = some ex) : ex ∈ es ∧ ex.name = N := by
  rw [collectExisting, collect_byName es ([], []) N] at h
  rcases collideFlip_chain_some h with hmem | hst
  · obtain ⟨hmem2, hname⟩ := List.mem_filter.1 hmem
    exact ⟨hmem2, by simpa using hname⟩
  · cases hst

theorem collectExisting_toDelete (es : List ExistingLB) (u : String) :
    u ∈ (collectExisting es).1 ↔ ∃ r ∈ es, r.uuid = u := by
  rw [collectExisting, collect_toDelete_mem]
  simp

theorem processOne_toDelete (byName : List (String × ExistingLB))
    (sw rt gp : List (String × List String)) (acc : EnsureOps) (lb : LB) :
    (processOne byName sw rt gp acc lb).toDelete =
      (match lookupA byName lb.name with
       | some ex => acc.toDelete.filter (fun u => decide (u ≠ ex.uuid))
       | none => acc.toDelete) := by
  rw [processOne]
  cases lookupA byName lb.name with
  | none => rfl
  | some ex => rfl

theorem processOne_existinglbs (byName : List (String × ExistingLB))
    (sw rt gp : List (String × List String)) (acc : EnsureOps) (lb : LB) :
    (processOne byName sw rt gp acc lb).existinglbs =
      (match lookupA byName lb.name with
       | some _ => acc.existinglbs ++ [builtFor byName lb]
       | none => acc.existinglbs) := by
  rw [processOne]
  cases lookupA byName lb.name with
  | none => rfl
  | some ex => rfl

theorem processOne_newlbs (byName : List (String × ExistingLB))
    (sw rt gp : List (String × List String)) (acc : EnsureOps) (lb : LB) :
    (processOne byName sw rt gp acc lb).newlbs =
      (match lookupA byName lb.name with
       | some _ => acc.newlbs
       | none => acc.newlbs ++ [builtFor byName lb]) := by
  rw [processOne]
  cases lookupA byName lb.name with
  | none => rfl
  | some ex => rfl

theorem fold_toDelete_mem (byName : List (String × ExistingLB))
    (sw rt gp : List (String × List String)) (LBs : List LB) (acc : EnsureOps)
    (u : String) :
    u ∈ (LBs.foldl (processOne byName sw rt gp) acc).toDelete ↔
      u ∈ acc.toDelete ∧
        ∀ lb ∈ LBs, ∀ ex, lookupA byName lb.name = some ex → ex.uuid ≠ u := by
  induction LBs generalizing acc with
  | nil => simp
  | cons lb t ih =>
    rw [List.foldl_cons, ih]
    cases hl : lookupA byName lb.name with
    | none =>
      rw [show (processOne byName sw rt gp acc lb).toDelete = acc.toDelete by
        rw [processOne_toDelete, hl]]
      constructor
      · rintro ⟨hu, hall⟩
        refine ⟨hu, ?_⟩
        intro lb2 hlb2 ex hex
        rcases List.mem_cons.1 hlb2 with rfl | hlb2
        · rw [hl] at hex
          cases hex
        · exact hall lb2 hlb2 ex hex
      · rintro ⟨hu, hall⟩
        exact ⟨hu, fun lb2 hlb2 ex hex =>
          hall lb2 (List.mem_cons_of_mem lb hlb2) ex hex⟩
    | some ex =>
      rw [show (processOne byName sw rt gp acc lb).toDelete =
          acc.toDelete.filter (fun u => decide (u ≠ ex.uuid)) by
        rw [processOne_toDelete, hl]]
      constructor
      · rintro ⟨hu, hall⟩
        obtain ⟨hu2, hne⟩ := List.mem_filter.1 hu
        refine ⟨hu2, ?_⟩
        intro lb2 hlb2 ex2 hex2
        rcases List.mem_cons.1 hlb2 with rfl | hlb2
        · rw [hl] at hex2
          injection hex2 with hex2
          subst hex2
          have hne2 : ¬ u = ex.uuid := by simpa using hne
          exact fun h => hne2 h.symm
        · exact hall lb2 hlb2 ex2 hex2
      · rintro ⟨hu, hall⟩
        refine ⟨List.mem_filter.2 ⟨hu, ?_⟩, ?_⟩
        · have hne2 := hall lb (List.mem_cons_self lb t) ex hl
          simp only [decide_eq_true_eq]
          exact fun h => hne2 h.symm
        · exact fun lb2 hlb2 ex2 hex2 =>
            hall lb2 (List.mem_cons_of_mem lb hlb2) ex2 hex2
    
theorem fold_existinglbs_mem (byName : List (String × ExistingLB))
    (sw rt gp : List (String × List String)) (LBs : List LB) (acc : EnsureOps)
    (nb : NbLB) :
    nb ∈ (LBs.foldl (processOne byName sw rt gp) acc).existinglbs ↔
      nb ∈ acc.existinglbs ∨
        ∃ lb ∈ LBs, (∃ ex, lookupA byName lb.name = some ex) ∧
          nb = builtFor byName lb := by
  induction LBs generalizing acc with
  | nil => simp
  | cons lb t ih =>
    rw [List.foldl_cons, ih]
    cases hl : lookupA byName lb.name with
    | none =>
      rw [show (processOne byName sw rt gp acc lb).existinglbs = acc.existinglbs by
        rw [processOne_existinglbs, hl]]
      constructor
      · rintro (hm | ⟨lb2, hlb2, hex, hnb⟩)
        · exact Or.inl hm
        · exact Or.inr ⟨lb2, List.mem_cons_of_mem lb hlb2, hex, hnb⟩
      · rintro (hm | ⟨lb2, hlb2, ⟨ex2, hex2⟩, hnb⟩)
        · exact Or.inl hm
        · rcases List.mem_cons.1 hlb2 with rfl | hlb2
          · rw [hl] at hex2
            cases hex2
          · exact Or.inr ⟨lb2, hlb2, ⟨ex2, hex2⟩, hnb⟩
    | some ex =>
      rw [show (processOne byName sw rt gp acc lb).existinglbs =
          acc.existinglbs ++ [builtFor byName lb] by
        rw [processOne_existinglbs, hl]]
      constructor
      · rintro (hm | ⟨lb2, hlb2, hex, hnb⟩)
        · rcases List.mem_append.1 hm with hm | hm
          · exact Or.inl hm
          · refine Or.inr ⟨lb, List.mem_cons_self lb t, ⟨ex, hl⟩, ?_⟩
            simpa using hm
        · exact Or.inr ⟨lb2, List.mem_cons_of_mem lb hlb2, hex, hnb⟩
      · rintro (hm | ⟨lb2, hlb2, hex2, hnb⟩)
        · exact Or.inl (List.mem_append.2 (Or.inl hm))
        · rcases List.mem_cons.1 hlb2 with rfl | hlb2
          · exact Or.inl (List.mem_append.2 (Or.inr (by simp [hnb])))
          · exact Or.inr ⟨lb2, hlb2, hex2, hnb⟩

theorem fold_newlbs_mem (byName : List (String × ExistingLB))
    (sw rt gp : List (String × List String)) (LBs : List LB) (acc : EnsureOps)
    (nb : NbLB) :
    nb ∈ (LBs.foldl (processOne byName sw rt gp) acc).newlbs ↔
      nb ∈ acc.newlbs ∨
        ∃ lb ∈ LBs, lookupA byName lb.name = none ∧ nb = builtFor byName lb := by
  induction LBs generalizing acc with
  | nil => simp
  | cons lb t ih =>
    rw [List.foldl_cons, ih]
    cases hl : lookupA byName lb.name with
    | some ex =>
      rw [show (processOne byName sw rt gp acc lb).newlbs = acc.newlbs by
        rw [processOne_newlbs, hl]]
      constructor
      · rintro (hm | ⟨lb2, hlb2, hex, hnb⟩)
        · exact Or.inl hm
        · exact Or.inr ⟨lb2, List.mem_cons_of_mem lb hlb2, hex, hnb⟩
      · rintro (hm | ⟨lb2, hlb2, hex2, hnb⟩)
        · exact Or.inl hm
        · rcases List.mem_cons.1 hlb2 with rfl | hlb2
          · rw [hl] at hex2
            cases hex2
          · exact Or.inr ⟨lb2, hlb2, hex2, hnb⟩
    | none =>
      rw [show (processOne byName sw rt gp acc lb).newlbs =
          acc.newlbs ++ [builtFor byName lb] by
        rw [processOne_newlbs, hl]]
      constructor
      · rintro (hm | ⟨lb2, hlb2, hex, hnb⟩)
        · rcases List.mem_append.1 hm with hm | hm
          · exact Or.inl hm
          · refine Or.inr ⟨lb, List.mem_cons_self lb t, hl, ?_⟩
            simpa using hm
        · exact Or.inr ⟨lb2, List.mem_cons_of_mem lb hlb2, hex, hnb⟩
      · rintro (hm | ⟨lb2, hlb2, hex2, hnb⟩)
        · exact Or.inl (List.mem_append.2 (Or.inl hm))
        · rcases List.mem_cons.1 hlb2 with rfl | hlb2
          · exact Or.inl (List.mem_append.2 (Or.inr (by simp [hnb])))
          · exact Or.inr ⟨lb2, hlb2, hex2, hnb⟩

theorem addToKeyMap_mem (m : List (String × List NbLB)) (ks : List String)
    (b : NbLB) (k : String) (blb : NbLB) :
    blb ∈ (lookupA (addToKeyMap m ks b) k).getD [] ↔
      blb ∈ (lookupA m k).getD [] ∨ (blb = b ∧ k ∈ ks) := by
  induction ks generalizing m with
  | nil => simp [addToKeyMap]
  | cons k0 t ih =>
    rw [addToKeyMap, List.foldl_cons]
    rw [show (List.foldl (fun m k => insertA m k ((lookupA m k).getD [] ++ [b])) 
        (insertA m k0 ((lookupA m k0).getD [] ++ [b])) t) =
      addToKeyMap (insertA m k0 ((lookupA m k0).getD [] ++ [b])) t b from rfl]
    rw [ih]
    by_cases hk : k = k0
    · subst hk
      rw [lookupA_insertA_self]
      constructor
      · rintro (hm | ⟨hb, hkt⟩)
        · rcases List.mem_append.1 hm with hm | hm
          · exact Or.inl hm
          · exact Or.inr ⟨by simpa using hm, List.mem_cons_self k t⟩
        · exact Or.inr ⟨hb, List.mem_cons_of_mem k hkt⟩
      · rintro (hm | ⟨hb, -⟩)
        · exact Or.inl (List.mem_append.2 (Or.inl hm))
        · exact Or.inl (List.mem_append.2 (Or.inr (by simp [hb])))
    · rw [lookupA_insertA_ne m k0 k _ hk]
      constructor
      · rintro (hm | ⟨hb, hkt⟩)
        · exact Or.inl hm
        · exact Or.inr ⟨hb, List.mem_cons_of_mem k0 hkt⟩
      · rintro (hm | ⟨hb, hk2⟩)
        · exact Or.inl hm
        · rcases List.mem_cons.1 hk2 with rfl | hk2
          · exact absurd rfl hk
          · exact Or.inr ⟨hb, hk2⟩

theorem diffKeys_mem (w ex : List String) (k : String) :
    k ∈ diffKeys w ex ↔ k ∈ w ∧ k ∉ ex := by
  rw [diffKeys]
  simp [List.mem_filter, List.mem_dedup]

theorem keymap_fold_mem (byName : List (String × ExistingLB))
    (sw rt gp : List (String × List String))
    (f : EnsureOps → List (String × List NbLB)) (ks : LB → List String)
    (hstep : ∀ acc lb, f (processOne byName sw rt gp acc lb) =
      addToKeyMap (f acc) (ks lb) (builtFor byName lb)) :
    ∀ (LBs : List LB) (acc : EnsureOps) (k : String) (blb : NbLB),
      blb ∈ (lookupA (f (LBs.foldl (processOne byName sw rt gp) acc)) k).getD [] ↔
        blb ∈ (lookupA (f acc) k).getD [] ∨
          ∃ lb ∈ LBs, blb = builtFor byName lb ∧ k ∈ ks lb := by
  intro LBs
  induction LBs with
  | nil => simp
  | cons lb t ih =>
    intro acc k blb
    rw [List.foldl_cons, ih, hstep, addToKeyMap_mem]
    constructor
    · rintro ((hm | ⟨hb, hk⟩) | ⟨lb2, hlb2, hb, hk⟩)
      · exact Or.inl hm
      · exact Or.inr ⟨lb, List.mem_cons_self lb t, hb, hk⟩
      · exact Or.inr ⟨lb2, List.mem_cons_of_mem lb hlb2, hb, hk⟩
    · rintro (hm | ⟨lb2, hlb2, hb, hk⟩)
      · exact Or.inl (Or.inl hm)
      · rcases List.mem_cons.1 hlb2 with rfl | hlb2
        · exact Or.inl (Or.inr ⟨hb, hk⟩)
        · exact Or.inr ⟨lb2, hlb2, hb, hk⟩

/-! ### Claim C6: attachment operations are plain set differences -/

/-- C6: for every `EnsureLBs` call, the per-target attachment operations are
exactly the plain set differences: a row is recorded under an add entry for
target `k` precisely when `k` is desired and not among the row's existing
attachments, and under a remove entry precisely when `k` is existing and not
desired — for switches, routers and groups alike. In particular, for one
existing row `A` attached to `s1` and the desired spec `{Name A, Switches
[s1, s2]}`, the computed transaction holds exactly one update of row `A`,
one add-attachment of `A` to `s2`, and no removals, creations or deletions. -/
theorem c6_attachment_diffs :
    (∀ (existing : List ExistingLB) (sw rt gp : List (String × List String))
        (LBs : List LB) (k : String) (blb : NbLB),
      (blb ∈ (lookupA (EnsureLBs existing sw rt gp LBs).addSw k).getD [] ↔
        ∃ lb ∈ LBs, blb = builtFor (collectExisting existing).2 lb ∧
          k ∈ lb.switches ∧ k ∉ exAtt (collectExisting existing).2 sw lb) ∧
      (blb ∈ (lookupA (EnsureLBs existing sw rt gp LBs).remSw k).getD [] ↔
        ∃ lb ∈ LBs, blb = builtFor (collectExisting existing).2 lb ∧
          k ∈ exAtt (collectExisting existing).2 sw lb ∧ k ∉ lb.switches) ∧
      (blb ∈ (lookupA (EnsureLBs existing sw rt gp LBs).addRt k).getD [] ↔
        ∃ lb ∈ LBs, blb = builtFor (collectExisting existing).2 lb ∧
          k ∈ lb.routers ∧ k ∉ exAtt (collectExisting existing).2 rt lb) ∧
      (blb ∈ (lookupA (EnsureLBs existing sw rt gp LBs).remRt k).getD [] ↔
        ∃ lb ∈ LBs, blb = builtFor (collectExisting existing).2 lb ∧
          k ∈ exAtt (collectExisting existing).2 rt lb ∧ k ∉ lb.routers) ∧
      (blb ∈ (lookupA (EnsureLBs existing sw rt gp LBs).addGp k).getD [] ↔
        ∃ lb ∈ LBs, blb = builtFor (collectExisting existing).2 lb ∧
          k ∈ lb.groups ∧ k ∉ exAtt (collectExisting existing).2 gp lb) ∧
      (blb ∈ (lookupA (EnsureLBs existing sw rt gp LBs).remGp k).getD [] ↔
        ∃ lb ∈ LBs, blb = builtFor (collectExisting existing).2 lb ∧
          k ∈ exAtt (collectExisting existing).2 gp lb ∧ k ∉ lb.groups)) ∧
    EnsureLBs [⟨"u1", "A"⟩] [("u1", ["s1"])] [] []
        [⟨"A", "", "tcp", [], [], ⟨false, false, false⟩, ["s1", "s2"], [], []⟩] =
      ⟨[⟨"u1", "A", "tcp", [], [],
          [("reject", "true"), ("event", "false"), ("skip_snat", "false")], []⟩],
        [],
        [("s2", [⟨"u1", "A", "tcp", [], [],
          [("reject", "true"), ("event", "false"), ("skip_snat", "false")], []⟩])],
        [], [], [], [], [], []⟩ := by
  constructor
  · intro existing sw rt gp LBs k blb
    rw [EnsureLBs]
    refine ⟨?_, ?_, ?_, ?_, ?_, ?_⟩
    · rw [keymap_fold_mem (collectExisting existing).2 sw rt gp
        (fun o => o.addSw)
        (fun lb => diffKeys lb.switches (exAtt (collectExisting existing).2 sw lb))
        (fun acc lb => rfl) LBs _ k blb]
      simp only [diffKeys_mem]
      simp [lookupA]
    · rw [keymap_fold_mem (collectExisting existing).2 sw rt gp
        (fun o => o.remSw)
        (fun lb => diffKeys (exAtt (collectExisting existing).2 sw lb) lb.switches)
        (fun acc lb => rfl) LBs _ k blb]
      simp only [diffKeys_mem]
      simp [lookupA]
    · rw [keymap_fold_mem (collectExisting existing).2 sw rt gp
        (fun o => o.addRt)
        (fun lb => diffKeys lb.routers (exAtt (collectExisting existing).2 rt lb))
        (fun acc lb => rfl) LBs _ k blb]
      simp only [diffKeys_mem]
      simp [lookupA]
    · rw [keymap_fold_mem (collectExisting existing).2 sw rt gp
        (fun o => o.remRt)
        (fun lb => diffKeys (exAtt (collectExisting existing).2 rt lb) lb.routers)
        (fun acc lb => rfl) LBs _ k blb]
      simp only [diffKeys_mem]
      simp [lookupA]
    · rw [keymap_fold_mem (collectExisting existing).2 sw rt gp
        (fun o => o.addGp)
        (fun lb => diffKeys lb.groups (exAtt (collectExisting existing).2 gp lb))
        (fun acc lb => rfl) LBs _ k blb]
      simp only [diffKeys_mem]
      simp [lookupA]
    · rw [keymap_fold_mem (collectExisting existing).2 sw rt gp
        (fun o => o.remGp)
        (fun lb => diffKeys (exAtt (collectExisting existing).2 gp lb) lb.groups)
        (fun acc lb => rfl) LBs _ k blb]
      simp only [diffKeys_mem]
      simp [lookupA]
  · decide

/-! ### Claims C7 and C9: name collisions among existing rows -/

theorem EnsureLBs_eq (existing : List ExistingLB) (sw rt gp : List (String × List String))
    (LBs : List LB) :
    EnsureLBs existing sw rt gp LBs =
      LBs.foldl (processOne (collectExisting existing).2 sw rt gp)
        ⟨[], [], [], [], [], [], [], [], (collectExisting existing).1⟩ := rfl

theorem builtFor_none {byName : List (String × ExistingLB)} {lb : LB}
    (h : lookupA byName lb.name = none) : builtFor byName lb = buildLB lb := by
  unfold builtFor
  rw [h]

theorem builtFor_some {byName : List (String × ExistingLB)} {lb : LB} {ex : ExistingLB}
    (h : lookupA byName lb.name = some ex) :
    builtFor byName lb = { buildLB lb with uuid := ex.uuid } := by
  unfold builtFor
  rw [h]

/-- C7: when exactly two existing rows under the ownership tag share a name,
both rows' UUIDs enter the pending-delete set and stay there regardless of
the desired specs: both colliding rows are deleted in the committed
transaction, and a desired spec carrying the collided name is created as a
brand-new row (no existing UUID is reused and no update row carries that
name). Existing rows are assumed to have pairwise distinct UUIDs, as
database rows do. -/
theorem c7_collision_pair (existing : List ExistingLB)
    (sw rt gp : List (String × List String)) (LBs : List LB) (X : String)
    (r1 r2 : ExistingLB)
    (hfilter : existing.filter (fun r => decide (r.name = X)) = [r1, r2])
    (hnodup : (existing.map ExistingLB.uuid).Nodup) :
    r1.uuid ∈ (EnsureLBs existing sw rt gp LBs).toDelete ∧
    r2.uuid ∈ (EnsureLBs existing sw rt gp LBs).toDelete ∧
    (∀ lb ∈ LBs, lb.name = X →
      buildLB lb ∈ (EnsureLBs existing sw rt gp LBs).newlbs) ∧
    (∀ nb ∈ (EnsureLBs existing sw rt gp LBs).existinglbs, nb.name ≠ X) := by
  have hbyX : lookupA (collectExisting existing).2 X = none := by
    rw [collectExisting, collect_byName existing ([], []) X, hfilter]
    rfl
  have hr1mem : r1 ∈ existing ∧ r1.name = X := by
    have h := List.mem_filter.1 (show r1 ∈ existing.filter
        (fun r => decide (r.name = X)) by
      rw [hfilter]
      exact List.mem_cons_self _ _)
    exact ⟨h.1, by simpa using h.2⟩
  have hr2mem : r2 ∈ existing ∧ r2.name = X := by
    have h := List.mem_filter.1 (show r2 ∈ existing.filter
        (fun r => decide (r.name = X)) by
      rw [hfilter]
      exact List.mem_cons_of_mem _ (List.mem_cons_self _ _))
    exact ⟨h.1, by simpa using h.2⟩
  have hinj := List.inj_on_of_nodup_map hnodup
  have hkeep : ∀ r, r ∈ existing → r.name = X →
      ∀ lb ∈ LBs, ∀ ex, lookupA (collectExisting existing).2 lb.name = some ex →
        ex.uuid ≠ r.uuid := by
    intro r hrmem hrname lb hlb ex hex
    obtain ⟨hexmem, hexname⟩ := collect_byName_mem existing lb.name ex hex
    by_cases hlbX : lb.name = X
    · rw [hlbX, hbyX] at hex
      cases hex
    · intro huuid
      have hexr : ex = r := hinj hexmem hrmem huuid
      rw [hexr, hrname] at hexname
      exact hlbX hexname.symm
  rw [EnsureLBs_eq]
  refine ⟨?_, ?_, ?_, ?_⟩
  · rw [fold_toDelete_mem]
    refine ⟨?_, hkeep r1 hr1mem.1 hr1mem.2⟩
    exact (collectExisting_toDelete existing r1.uuid).2 ⟨r1, hr1mem.1, rfl⟩
  · rw [fold_toDelete_mem]
    refine ⟨?_, hkeep r2 hr2mem.1 hr2mem.2⟩
    exact (collectExisting_toDelete existing r2.uuid).2 ⟨r2, hr2mem.1, rfl⟩
  · intro lb hlb hname
    rw [fold_newlbs_mem]
    refine Or.inr ⟨lb, hlb, ?_, ?_⟩
    · rw [hname]
      exact hbyX
    · exact (builtFor_none (by rw [hname]; exact hbyX)).symm
  · intro nb hnb
    rw [fold_existinglbs_mem] at hnb
    rcases hnb with hnb | ⟨lb, hlb, ⟨ex, hex⟩, hnb2⟩
    · cases hnb
    · intro hcon
      have hnbname : nb.name = lb.name := by
        rw [hnb2, builtFor_some hex]
        rfl
      rw [hnbname] at hcon
      rw [hcon, hbyX] at hex
      cases hex

theorem c7_collision_pair_witness :
    ("u1" : String) ∈ (EnsureLBs [⟨"u1", "X"⟩, ⟨"u2", "X"⟩] [] [] []
      [⟨"X", "", "tcp", [], [], ⟨false, false, false⟩, [], [], []⟩]).toDelete ∧
    ("u2" : String) ∈ (EnsureLBs [⟨"u1", "X"⟩, ⟨"u2", "X"⟩] [] [] []
      [⟨"X", "", "tcp", [], [], ⟨false, false, false⟩, [], [], []⟩]).toDelete ∧
    buildLB ⟨"X", "", "tcp", [], [], ⟨false, false, false⟩, [], [], []⟩ ∈
      (EnsureLBs [⟨"u1", "X"⟩, ⟨"u2", "X"⟩] [] [] []
        [⟨"X", "", "tcp", [], [], ⟨false, false, false⟩, [], [], []⟩]).newlbs := by
  have h := c7_collision_pair [⟨"u1", "X"⟩, ⟨"u2", "X"⟩] [] [] []
    [⟨"X", "", "tcp", [], [], ⟨false, false, false⟩, [], [], []⟩] "X"
    ⟨"u1", "X"⟩ ⟨"u2", "X"⟩ (by decide) (by decide)
  exact ⟨h.1, h.2.1,
    h.2.2.1 ⟨"X", "", "tcp", [], [], ⟨false, false, false⟩, [], [], []⟩
      (List.mem_cons_self _ _) rfl⟩

/-- C9, counterexample to the claim as stated: with four existing rows named
`X` (uuids u1..u4), the claim's "three or more" case fails — the rows pair
up, so all four UUIDs stay in the pending-delete set, the name map ends
empty, and a desired spec named `X` is created as a new row: the third row's
UUID is neither reused nor removed from the pending-delete set, and rows
three and four are also unconditionally deleted. -/
theorem c9_counterexample :
    ("u3" : String) ∈ (EnsureLBs
      [⟨"u1", "X"⟩, ⟨"u2", "X"⟩, ⟨"u3", "X"⟩, ⟨"u4", "X"⟩] [] [] []
      [⟨"X", "", "tcp", [], [], ⟨false, false, false⟩, [], [], []⟩]).toDelete ∧
    (EnsureLBs [⟨"u1", "X"⟩, ⟨"u2", "X"⟩, ⟨"u3", "X"⟩, ⟨"u4", "X"⟩] [] [] []
      [⟨"X", "", "tcp", [], [], ⟨false, false, false⟩, [], [], []⟩]).existinglbs = [] ∧
    (EnsureLBs [⟨"u1", "X"⟩, ⟨"u2", "X"⟩, ⟨"u3", "X"⟩, ⟨"u4", "X"⟩] [] [] []
      [⟨"X", "", "tcp", [], [], ⟨false, false, false⟩, [], [], []⟩]).toDelete =
      ["u1", "u2", "u3", "u4"] := by
  refine ⟨by decide, by decide, by decide⟩

/-- C9, corrected: when exactly three existing rows under the ownership tag
share a name, only the first two rows in listing order are unconditionally
deleted; the third row re-enters the name map as if no collision had
occurred, and a desired spec carrying that name reuses the third row's UUID
as an update and removes it from the pending-delete set. (With four or more
same-named rows the rows cancel pairwise, so the pattern does not extend to
"three or more".) Existing rows are assumed to have pairwise distinct
UUIDs. -/
theorem c9_amended (existing : List ExistingLB)
    (sw rt gp : List (String × List String)) (LBs : List LB) (X : String)
    (r1 r2 r3 : ExistingLB)
    (hfilter : existing.filter (fun r => decide (r.name = X)) = [r1, r2, r3])
    (hnodup : (existing.map ExistingLB.uuid).Nodup) :
    r1.uuid ∈ (EnsureLBs existing sw rt gp LBs).toDelete ∧
    r2.uuid ∈ (EnsureLBs existing sw rt gp LBs).toDelete ∧
    lookupA (collectExisting existing).2 X = some r3 ∧
    (∀ lb ∈ LBs, lb.name = X →
      { buildLB lb with uuid := r3.uuid } ∈
        (EnsureLBs existing sw rt gp LBs).existinglbs ∧
      r3.uuid ∉ (EnsureLBs existing sw rt gp LBs).toDelete) := by
  have hbyX : lookupA (collectExisting existing).2 X = some r3 := by
    rw [collectExisting, collect_byName existing ([], []) X, hfilter]
    rfl
  have hr1mem : r1 ∈ existing ∧ r1.name = X := by
    have h := List.mem_filter.1 (show r1 ∈ existing.filter
        (fun r => decide (r.name = X)) by
      rw [hfilter]
      exact List.mem_cons_self _ _)
    exact ⟨h.1, by simpa using h.2⟩
  have hr2mem : r2 ∈ existing ∧ r2.name = X := by
    have h := List.mem_filter.1 (show r2 ∈ existing.filter
        (fun r => decide (r.name = X)) by
      rw [hfilter]
      exact List.mem_cons_of_mem _ (List.mem_cons_self _ _))
    exact ⟨h.1, by simpa using h.2⟩
  have hinj := List.inj_on_of_nodup_map hnodup
  have htrio : ((existing.filter (fun r => decide (r.name = X))).map
      ExistingLB.uuid).Nodup :=
    ((List.filter_sublist existing).map ExistingLB.uuid).nodup hnodup
  rw [hfilter] at htrio
  have h13 : r1.uuid ≠ r3.uuid := by
    intro h
    simp [List.nodup_cons] at htrio
    exact htrio.1.2 h
  have h23 : r2.uuid ≠ r3.uuid := by
    intro h
    simp [List.nodup_cons] at htrio
    exact htrio.2 h
  have hkeep : ∀ r, r ∈ existing → r.name = X → r.uuid ≠ r3.uuid →
      ∀ lb ∈ LBs, ∀ ex, lookupA (collectExisting existing).2 lb.name = some ex →
        ex.uuid ≠ r.uuid := by
    intro r hrmem hrname hr3 lb hlb ex hex
    obtain ⟨hexmem, hexname⟩ := collect_byName_mem existing lb.name ex hex
    by_cases hlbX : lb.name = X
    · rw [hlbX, hbyX] at hex
      injection hex with hex
      subst hex
      exact fun h => hr3 h.symm
    · intro huuid
      have hexr : ex = r := hinj hexmem hrmem huuid
      rw [hexr, hrname] at hexname
      exact hlbX hexname.symm
  refine ⟨?_, ?_, hbyX, ?_⟩
  · rw [EnsureLBs_eq, fold_toDelete_mem]
    refine ⟨?_, hkeep r1 hr1mem.1 hr1mem.2 h13⟩
    exact (collectExisting_toDelete existing r1.uuid).2 ⟨r1, hr1mem.1, rfl⟩
  · rw [EnsureLBs_eq, fold_toDelete_mem]
    refine ⟨?_, hkeep r2 hr2mem.1 hr2mem.2 h23⟩
    exact (collectExisting_toDelete existing r2.uuid).2 ⟨r2, hr2mem.1, rfl⟩
  · intro lb hlb hname
    have hlook : lookupA (collectExisting existing).2 lb.name = some r3 := by
      rw [hname]
      exact hbyX
    constructor
    · rw [EnsureLBs_eq, fold_existinglbs_mem]
      exact Or.inr ⟨lb, hlb, ⟨r3, hlook⟩, (builtFor_some hlook).symm⟩
    · intro hmem
      rw [EnsureLBs_eq, fold_toDelete_mem] at hmem
      exact hmem.2 lb hlb r3 hlook rfl

theorem c9_amended_witness :
    lookupA (collectExisting [⟨"u1", "X"⟩, ⟨"u2", "X"⟩, ⟨"u3", "X"⟩]).2 "X" =
      some ⟨"u3", "X"⟩ ∧
    { buildLB ⟨"X", "", "tcp", [], [], ⟨false, false, false⟩, [], [], []⟩ with
        uuid := "u3" } ∈
      (EnsureLBs [⟨"u1", "X"⟩, ⟨"u2", "X"⟩, ⟨"u3", "X"⟩] [] [] []
        [⟨"X", "", "tcp", [], [], ⟨false, false, false⟩, [], [], []⟩]).existinglbs ∧
    ("u3" : String) ∉ (EnsureLBs [⟨"u1", "X"⟩, ⟨"u2", "X"⟩, ⟨"u3", "X"⟩] [] [] []
      [⟨"X", "", "tcp", [], [], ⟨false, false, false⟩, [], [], []⟩]).toDelete ∧
    ("u1" : String) ∈ (EnsureLBs [⟨"u1", "X"⟩, ⟨"u2", "X"⟩, ⟨"u3", "X"⟩] [] [] []
      [⟨"X", "", "tcp", [], [], ⟨false, false, false⟩, [], [], []⟩]).toDelete := by
  have h := c9_amended [⟨"u1", "X"⟩, ⟨"u2", "X"⟩, ⟨"u3", "X"⟩] [] [] []
    [⟨"X", "", "tcp", [], [], ⟨false, false, false⟩, [], [], []⟩] "X"
    ⟨"u1", "X"⟩ ⟨"u2", "X"⟩ ⟨"u3", "X"⟩ (by decide) (by decide)
  have h4 := h.2.2.2 ⟨"X", "", "tcp", [], [], ⟨false, false, false⟩, [], [], []⟩
    (List.mem_cons_self _ _) rfl
  exact ⟨h.2.2.1, h4.1, h4.2, h.1⟩
